import Mathlib

/-!
# Verification of the crypto-analysis pipeline core

A shallow embedding, in Lean 4, of the pipeline core of the
`crypto-ai-analyst` backend (`backend/app`): the Pydantic record schema and
the record validator (`models/schemas.py`, `utils/schema_converters.py`),
the LangGraph workflow state, its three nodes and its conditional routing
(`agents/langgraph_workflow.py`), the statistics engine
(`agents/analysis_agent.py`), the insight generator's fallback path
(`agents/insights_agent.py`) and the state writes of the chart renderer
(`agents/visualization_agent.py`), together with theorems about the
behaviour of these functions.

Modelling conventions:
* Python floats and ints are embedded as `ℚ` and `ℤ`; the claims under
  study are about the algorithms (sums, means, counts, orderings), not
  about rounding of IEEE floats.
* A JSON value that may be absent is an outer `Option`; a field that may be
  `null` (`None`) is an inner `Option`.  Python truthiness of a number is
  "non-zero", of `None` it is false; the `pyTruthy…` helpers spell this out.
* `datetime.now()` is passed in as an opaque `now : String` parameter.
* Network and file I/O (the CoinGecko fetch, the OpenAI call, matplotlib)
  happen outside the functions modelled here; each such effect enters as an
  explicit `Except` outcome parameter, exactly at the place the Python code
  performs the call inside its `try` block.
* Python's `sorted` is a stable sort; it is embedded as `List.mergeSort`,
  which is stable.  A comparison between `None` and a number raises
  `TypeError` in Python 3; the embedding of `_find_top_performers` returns
  `.error` in precisely the situations where such a comparison is executed
  (two or more elements, at least one `None` key).
* Number rendering inside f-strings (`:,.0f`, `:.2f`) is embedded as plain
  decimal rendering; the thousands separators and the exact rounding rule
  of the Python format specifiers are immaterial to every claim and are
  not reproduced.
-/

/-! ## Data model: `models/schemas.py` -/

/-- A raw record as fetched from the market-data provider, restricted to the
fields `CryptoData` (in `models/schemas.py`) looks at.  An outer `none`
means the key is absent from the JSON object; `some none` means the key is
present with value `null`. -/
structure RawRecord where
  id : Option String
  symbol : Option String
  name : Option String
  current_price : Option ℚ
  market_cap : Option (Option ℤ)
  market_cap_rank : Option (Option ℤ)
  total_volume : Option (Option ℤ)
  price_change_percentage_24h : Option (Option ℚ)
  price_change_percentage_7d : Option (Option ℚ)
  price_change_percentage_30d : Option (Option ℚ)
  image : Option (Option String)
  last_updated : Option (Option String)
deriving DecidableEq, Repr

/-- A validated record: the Pydantic model `CryptoData` after `.dict()`.
`id`, `symbol`, `name`, `current_price` are required; the `Optional` fields
keep `None` when the raw value was `null` and fall back to their declared
defaults (`0` for the rank/cap/volume fields, `None` for the rest) when the
key was absent. -/
structure CryptoData where
  id : String
  symbol : String
  name : String
  current_price : ℚ
  market_cap : Option ℤ
  market_cap_rank : Option ℤ
  total_volume : Option ℤ
  price_change_percentage_24h : Option ℚ
  price_change_percentage_7d : Option ℚ
  price_change_percentage_30d : Option ℚ
  image : Option String
  last_updated : Option String
deriving DecidableEq, Repr

/-- `CryptoData(**item)`: Pydantic construction of one record.  It succeeds
exactly when the four required fields are present (a present field of this
typed embedding is well-typed by construction), applying the declared
defaults to the absent optional fields; otherwise it raises a
`ValidationError`, whose message text is abbreviated here to the constant
reason string. -/
def pydantic_validate (r : RawRecord) : Except String CryptoData :=
  match r.id, r.symbol, r.name, r.current_price with
  | some i, some sy, some nm, some p =>
      .ok { id := i, symbol := sy, name := nm, current_price := p,
            market_cap := r.market_cap.getD (some 0),
            market_cap_rank := r.market_cap_rank.getD (some 0),
            total_volume := r.total_volume.getD (some 0),
            price_change_percentage_24h := r.price_change_percentage_24h.getD none,
            price_change_percentage_7d := r.price_change_percentage_7d.getD none,
            price_change_percentage_30d := r.price_change_percentage_30d.getD none,
            image := r.image.getD none,
            last_updated := r.last_updated.getD none }
  | _, _, _, _ => .error "field required"

/-! ## Python truthiness helpers -/

/-- Truthiness of an optional number: `None` and `0` are falsy. -/
def pyTruthyQ (v : Option ℚ) : Bool :=
  match v with
  | none => false
  | some q => decide (q ≠ 0)

/-- Truthiness of an optional integer: `None` and `0` are falsy. -/
def pyTruthyZ (v : Option ℤ) : Bool :=
  match v with
  | none => false
  | some z => decide (z ≠ 0)

/-! ## `utils/schema_converters.py` -/

namespace SchemaConverter

/-- The per-item error string built in the loop of
`validate_raw_crypto_data`:
`f"Validation error for {item.get('id', 'unknown')}: {str(e)}"`. -/
def validation_error_for (item : RawRecord) (e : String) : String :=
  "Validation error for " ++ item.id.getD "unknown" ++ ": " ++ e

/-- `SchemaConverter.validate_raw_crypto_data`: validates each raw record
independently; a record that parses is appended to the validated output,
one that raises is turned into exactly one error string, and the loop then
continues with the next record. -/
def validate_raw_crypto_data : List RawRecord → List CryptoData × List String
  | [] => ([], [])
  | item :: rest =>
      let acc := validate_raw_crypto_data rest
      match pydantic_validate item with
      | .ok d => (d :: acc.1, acc.2)
      | .error e => (acc.1, validation_error_for item e :: acc.2)

end SchemaConverter

/-! ## Workflow state: `agents/langgraph_workflow.py` -/

/-- `market_overview` as built inline by `analysis_node` (this is distinct
from the richer overview of `AnalysisAgent`, embedded further below). -/
structure NodeMarketOverview where
  total_cryptos_analyzed : ℕ
  total_market_cap : ℤ
  average_price : ℚ
deriving DecidableEq, Repr

/-- `price_trends` as built inline by `analysis_node`. -/
structure NodePriceTrends where
  average_24h_change : ℚ
  positive_movers : ℕ
  negative_movers : ℕ
deriving DecidableEq, Repr

/-- `analysis_results` as built by `analysis_node`: the `price_trends` key
is present only when the node's two guards both hold, hence an `Option`. -/
structure NodeAnalysisResults where
  market_overview : NodeMarketOverview
  top_performers_by_market_cap : List CryptoData
  price_trends : Option NodePriceTrends
deriving DecidableEq, Repr

/-- `CryptoAnalysisState`, the LangGraph `TypedDict`, plus the keys the
enrichment agents (`insights_agent.py`, `visualization_agent.py`) add to
the same shared dict at runtime; those start out absent, hence `Option`.
`analysis_results` starts as the empty dict, modelled as `none`. -/
structure CryptoAnalysisState where
  num_coins : ℕ
  vs_currency : String
  raw_crypto_data : List RawRecord
  validated_crypto_data : List CryptoData
  analysis_results : Option NodeAnalysisResults
  workflow_status : String
  data_collection_status : String
  analysis_status : String
  has_price_changes : Bool
  warnings : List String
  errors : List String
  timestamp : String
  ai_insights : Option (List String)
  insights_status : Option String
  insights_error : Option String
  chart_paths : Option (List String)
  visualization_status : Option String
  visualization_error : Option String
deriving DecidableEq, Repr

namespace SchemaConverter

/-- `SchemaConverter.request_to_langgraph_state`: the fresh per-request
state. -/
def request_to_langgraph_state (num_coins : ℕ) (vs_currency : String)
    (now : String) : CryptoAnalysisState :=
  { num_coins := num_coins
    vs_currency := vs_currency
    raw_crypto_data := []
    validated_crypto_data := []
    analysis_results := none
    workflow_status := "starting"
    data_collection_status := "pending"
    analysis_status := "pending"
    has_price_changes := false
    warnings := []
    errors := []
    timestamp := now
    ai_insights := none
    insights_status := none
    insights_error := none
    chart_paths := none
    visualization_status := none
    visualization_error := none }

/-- The API response, restricted to the fields
`langgraph_state_to_response` fills (`data` is flattened into the
structure). -/
structure AnalysisResponse where
  status : String
  message : String
  analysis_results : Option NodeAnalysisResults
  crypto_count : ℕ
  has_price_changes : Bool
  workflow_status : String
  warnings : List String
deriving DecidableEq, Repr

/-- `SchemaConverter.langgraph_state_to_response`. -/
def langgraph_state_to_response (s : CryptoAnalysisState) : AnalysisResponse :=
  { status := if s.workflow_status = "completed" then "success" else "error"
    message := "LangGraph workflow processed " ++
      toString s.validated_crypto_data.length ++ " cryptocurrencies"
    analysis_results := s.analysis_results
    crypto_count := s.validated_crypto_data.length
    has_price_changes := s.has_price_changes
    workflow_status := s.workflow_status
    warnings := s.warnings }

end SchemaConverter

/-! ## Python stable sorting

`sorted(l, key=k, reverse=True)` is a stable descending sort: elements are
ordered by decreasing key, equal keys keep their original relative order.
`List.mergeSort` with the reflexive comparison `key b ≤ key a` is exactly
that. -/

/-- The comparison `sorted(…, key, reverse=True)` sorts by. -/
def pyDescLe {α β : Type} [LinearOrder β] (key : α → β) (a b : α) : Bool :=
  decide (key b ≤ key a)

/-- Python's `sorted(l, key=key, reverse=True)`. -/
def pySortedDesc {α β : Type} [LinearOrder β] (key : α → β) (l : List α) :
    List α :=
  l.mergeSort (pyDescLe key)

/-! ## Workflow nodes: `agents/langgraph_workflow.py` -/

/-- `data_collection_node`.  `fetch` is the outcome of
`crypto_service.get_basic_crypto_data(state["num_coins"])`: `.error e`
stands for the call raising with message `e` (the node's `except` branch
replaces the error list with `[str(e)]`), `.ok raw` for the fetched batch.
On success the node validates, stores, sets `has_price_changes` from the
validated output and flags an empty validated output as stage failure. -/
def data_collection_node (fetch : Except String (List RawRecord))
    (now : String) (s : CryptoAnalysisState) : CryptoAnalysisState :=
  match fetch with
  | .error e =>
      { s with data_collection_status := "failed", errors := [e],
               timestamp := now }
  | .ok raw_data =>
      let v := SchemaConverter.validate_raw_crypto_data raw_data
      let s1 := { s with
        raw_crypto_data := raw_data
        validated_crypto_data := v.1
        data_collection_status := "completed"
        has_price_changes :=
          v.1.any (fun c => c.price_change_percentage_24h.isSome)
        timestamp := now }
      let s2 := { s1 with warnings := s1.warnings ++ v.2 }
      if v.1.isEmpty then
        { s2 with data_collection_status := "failed",
                  errors := s2.errors ++ ["No valid crypto data after validation"] }
      else s2

/-- The Python `TypeError` message raised when `sum` meets a `None`
market cap (`crypto.get("market_cap", 0)` returns the stored `None`, the
`.get` default applying only to an absent key). -/
def sumTypeErrorMsg : String :=
  "unsupported operand type(s) for +: 'int' and 'NoneType'"

/-- `analysis_node`.  Raises (hence: stage `failed`, error list replaced)
when the validated set is empty, or when a `None` market cap reaches the
`sum` on the `market_overview` line; otherwise computes the inline
overview, the top five by market cap, and — only when `has_price_changes`
is set and a non-`None` 24h change exists — the inline `price_trends`. -/
def analysis_node (now : String) (s : CryptoAnalysisState) :
    CryptoAnalysisState :=
  let crypto_data := s.validated_crypto_data
  if crypto_data.isEmpty then
    { s with analysis_status := "failed",
             errors := ["No validated crypto data available for analysis"],
             timestamp := now }
  else if crypto_data.any (fun c => c.market_cap.isNone) then
    { s with analysis_status := "failed", errors := [sumTypeErrorMsg],
             timestamp := now }
  else
    let overview : NodeMarketOverview :=
      { total_cryptos_analyzed := crypto_data.length
        total_market_cap := (crypto_data.map (fun c => c.market_cap.getD 0)).sum
        average_price :=
          (crypto_data.map (fun c => c.current_price)).sum / crypto_data.length }
    let top := (pySortedDesc (fun c => c.market_cap.getD 0) crypto_data).take 5
    let price_trends : Option NodePriceTrends :=
      if s.has_price_changes then
        let price_changes :=
          crypto_data.filterMap (fun c => c.price_change_percentage_24h)
        if price_changes.isEmpty then none
        else some
          { average_24h_change := price_changes.sum / price_changes.length
            positive_movers := (price_changes.filter (fun c => 0 < c)).length
            negative_movers := (price_changes.filter (fun c => c < 0)).length }
      else none
    { s with
      analysis_results := some
        { market_overview := overview
          top_performers_by_market_cap := top
          price_trends := price_trends }
      analysis_status := "completed"
      timestamp := now }

/-- The diagnostic string `error_handling_node` appends. -/
def errorHandlerWarning : String := "Workflow completed with errors - check logs"

/-- `error_handling_node`: marks the workflow `completed_with_errors` and
appends exactly one diagnostic warning (its `if not state.get("warnings")`
guard only re-creates an empty list, so the net effect is one append). -/
def error_handling_node (now : String) (s : CryptoAnalysisState) :
    CryptoAnalysisState :=
  { s with workflow_status := "completed_with_errors", timestamp := now,
           warnings := s.warnings ++ [errorHandlerWarning] }

/-- LangGraph's `END` sentinel. -/
def END_SENTINEL : String := "__end__"

/-- `should_continue_to_analysis`: route after the data-collection node. -/
def should_continue_to_analysis (s : CryptoAnalysisState) : String :=
  if s.data_collection_status = "completed" then "analysis" else "error_handler"

/-- `check_workflow_completion`: route after the analysis node.  The Python
function also mutates the state (setting `workflow_status = "completed"`)
on the `END` branch, so the embedding returns the updated state together
with the route. -/
def check_workflow_completion (s : CryptoAnalysisState) :
    CryptoAnalysisState × String :=
  if s.analysis_status = "completed" then
    ({ s with workflow_status := "completed" }, END_SENTINEL)
  else (s, "error_handler")

/-- One run of the compiled workflow of
`create_crypto_analysis_workflow`: `START → data_collection`, then the
conditional edges keyed by `should_continue_to_analysis` and
`check_workflow_completion`, with `error_handler → END`. -/
def run_workflow (fetch : Except String (List RawRecord)) (now : String)
    (s0 : CryptoAnalysisState) : CryptoAnalysisState :=
  let s1 := data_collection_node fetch now s0
  if should_continue_to_analysis s1 = "analysis" then
    let s2 := analysis_node now s1
    let r := check_workflow_completion s2
    if r.2 = END_SENTINEL then r.1 else error_handling_node now r.1
  else error_handling_node now s1

/-! ## Python numeric helpers used by the statistics engine -/

/-- `min(l)` for a non-empty list (`0` stands in for the guarded empty
case, which the callers exclude with `if prices else 0`). -/
def pyMin : List ℚ → ℚ
  | [] => 0
  | h :: t => t.foldl min h

/-- `max(l)` for a non-empty list, same convention as `pyMin`. -/
def pyMax : List ℚ → ℚ
  | [] => 0
  | h :: t => t.foldl max h

/-- `statistics.median(l)`: sort ascending; middle element for odd length,
mean of the two middle elements for even length. -/
def pyMedian (l : List ℚ) : ℚ :=
  let s := l.mergeSort (fun a b => decide (a ≤ b))
  if l.length % 2 = 1 then s.getD (l.length / 2) 0
  else (s.getD (l.length / 2 - 1) 0 + s.getD (l.length / 2) 0) / 2

/-- `max(iterable, key=…)`: the first element with the maximal key (Python's
`max` keeps the earlier element on ties). -/
def pyMaxBy {α : Type} (key : α → ℤ) : List α → Option α
  | [] => none
  | h :: t => some (t.foldl (fun best x => if key best < key x then x else best) h)

/-! ## Statistics engine: `agents/analysis_agent.py` -/

namespace AnalysisAgent

/-- The return value of `_analyze_market_overview`. -/
structure MarketOverview where
  total_cryptos_analyzed : ℕ
  total_market_cap : ℤ
  average_price : ℚ
  median_price : ℚ
  price_range_min : ℚ
  price_range_max : ℚ
deriving DecidableEq, Repr

/-- The return value of `_analyze_price_trends`, and the `price_trends`
entry of the derived results: either the placeholder note or the computed
mapping. -/
inductive PriceTrends
  | note (note : String)
  | computed (average_24h_change : ℚ) (positive_movers : ℕ)
      (negative_movers : ℕ) (strongest_gain : ℚ) (biggest_loss : ℚ)
deriving DecidableEq, Repr

/-- The return value of `_analyze_volume`. -/
inductive VolumeAnalysis
  | note (note : String)
  | computed (total_volume : ℤ) (average_volume : ℚ)
      (highest_volume_crypto : String)
deriving DecidableEq, Repr

/-- The return value of `_find_top_performers`: the ranked records
projected to `{"name": …, "market_cap": …}` resp. `{"name": …, "change": …}`
pairs. -/
structure TopPerformers where
  top_by_market_cap : List (String × Option ℤ)
  top_by_24h_change : List (String × Option ℚ)
deriving DecidableEq, Repr

/-- The derived-results mapping of `analyze_crypto_data`: all four analysis
categories are present as fields, so none can be omitted. -/
structure AnalysisResults where
  market_overview : MarketOverview
  price_trends : PriceTrends
  volume_analysis : VolumeAnalysis
  top_performers : TopPerformers
deriving DecidableEq, Repr

/-- The comprehension `[float(coin["current_price"]) for coin in
crypto_data if coin["current_price"]]` of `_analyze_market_overview`: a
truthiness filter, so a price of `0` is dropped. -/
def pricesOf (crypto_data : List CryptoData) : List ℚ :=
  (crypto_data.filter (fun c => decide (c.current_price ≠ 0))).map
    (fun c => c.current_price)

/-- The comprehension `[int(coin["market_cap"]) for coin in crypto_data if
coin["market_cap"]]`: a truthiness filter, so `None` *and* `0` are
dropped. -/
def marketCapsOf (crypto_data : List CryptoData) : List ℤ :=
  (crypto_data.filter (fun c => pyTruthyZ c.market_cap)).map
    (fun c => c.market_cap.getD 0)

/-- `_analyze_market_overview`. -/
def _analyze_market_overview (crypto_data : List CryptoData) : MarketOverview :=
  let prices := pricesOf crypto_data
  let market_caps := marketCapsOf crypto_data
  { total_cryptos_analyzed := crypto_data.length
    total_market_cap := market_caps.sum
    average_price := if prices.isEmpty then 0 else prices.sum / prices.length
    median_price := if prices.isEmpty then 0 else pyMedian prices
    price_range_min := if prices.isEmpty then 0 else pyMin prices
    price_range_max := if prices.isEmpty then 0 else pyMax prices }

/-- `_analyze_price_trends`: the 24h changes are collected with an
`is not None` test (unlike the truthiness tests elsewhere), so a stored
`0.0` *is* kept here. -/
def _analyze_price_trends (crypto_data : List CryptoData) : PriceTrends :=
  let changes_24h := crypto_data.filterMap
    (fun c => c.price_change_percentage_24h)
  if changes_24h.isEmpty then .note "No price change data available"
  else
    .computed (changes_24h.sum / changes_24h.length)
      (changes_24h.filter (fun c => decide (0 < c))).length
      (changes_24h.filter (fun c => decide (c < 0))).length
      (pyMax changes_24h) (pyMin changes_24h)

/-- The `TypeError` message of a `None`-vs-`int` comparison. -/
def cmpTypeErrorMsg : String :=
  "'<' not supported between instances of 'NoneType' and 'int'"

/-- `_analyze_volume`.  The `max(crypto_data, key=lambda x:
x.get("total_volume", 0))` call compares keys, and a `None` key (a stored
`null` volume) raises `TypeError` as soon as a comparison happens — that
is, whenever the list has two or more records and some volume is `None`. -/
def _analyze_volume (crypto_data : List CryptoData) :
    Except String VolumeAnalysis :=
  let volumes := (crypto_data.filter (fun c => pyTruthyZ c.total_volume)).map
    (fun c => c.total_volume.getD 0)
  if volumes.isEmpty then .ok (.note "Volume data not available")
  else if 2 ≤ crypto_data.length ∧ crypto_data.any (fun c => c.total_volume.isNone) then
    .error cmpTypeErrorMsg
  else
    match pyMaxBy (fun c => c.total_volume.getD 0) crypto_data with
    | none => .ok (.note "Volume data not available")
    | some best =>
        .ok (.computed volumes.sum (volumes.sum / volumes.length) best.name)

/-- `_find_top_performers`.  The market-cap ranking sorts *all* records by
`x.get("market_cap", 0)`; the key is the stored value, so a `None` market
cap reaches a `None`-vs-`int` comparison and raises whenever the list has
two or more records.  The 24h-change ranking is guarded and filtered by
*truthiness* (`coin.get("price_change_percentage_24h")` used as a
boolean), so records whose change is `None` **or `0.0`** are excluded. -/
def _find_top_performers (crypto_data : List CryptoData) :
    Except String TopPerformers :=
  if 2 ≤ crypto_data.length ∧ crypto_data.any (fun c => c.market_cap.isNone) then
    .error cmpTypeErrorMsg
  else
    let by_market_cap :=
      (pySortedDesc (fun c => c.market_cap.getD 0) crypto_data).take 5
    let by_change :=
      if crypto_data.any (fun c => pyTruthyQ c.price_change_percentage_24h) then
        (pySortedDesc (fun c => c.price_change_percentage_24h.getD 0)
          (crypto_data.filter
            (fun c => pyTruthyQ c.price_change_percentage_24h))).take 5
      else []
    .ok { top_by_market_cap :=
            by_market_cap.map (fun c => (c.name, c.market_cap))
          top_by_24h_change :=
            if by_change.isEmpty then []
            else by_change.map (fun c => (c.name, c.price_change_percentage_24h)) }

/-- The `price_trends` entry `analyze_crypto_data` stores: dispatched on
the `has_price_changes` flag, with the explicit placeholder note on the
false branch. -/
def price_trends_entry (has_price_changes : Bool)
    (crypto_data : List CryptoData) : PriceTrends :=
  if has_price_changes then _analyze_price_trends crypto_data
  else .note "Price change data not available"

/-- `analyze_crypto_data`, reduced to the derived-results mapping it
builds: raises on an empty input, and propagates the `TypeError` of the
volume and top-performer sub-computations. -/
def analyze_crypto_data (has_price_changes : Bool)
    (crypto_data : List CryptoData) : Except String AnalysisResults :=
  if crypto_data.isEmpty then .error "No crypto data to analyze"
  else
    match _analyze_volume crypto_data, _find_top_performers crypto_data with
    | .error e, _ => .error e
    | .ok _, .error e => .error e
    | .ok va, .ok tp =>
        .ok { market_overview := _analyze_market_overview crypto_data
              price_trends := price_trends_entry has_price_changes crypto_data
              volume_analysis := va
              top_performers := tp }

end AnalysisAgent

/-! ## Decimal rendering for the f-strings of `insights_agent.py` -/

/-- The ten decimal digit characters. -/
def decDigits : List Char := ['0', '1', '2', '3', '4', '5', '6', '7', '8', '9']

/-- The digit character for `d < 10`. -/
def digitChar (d : ℕ) : Char := decDigits.getD d '0'

/-- The decimal digits of a natural number, most significant first. -/
def natChars (n : ℕ) : List Char :=
  if h : n < 10 then [digitChar n]
  else natChars (n / 10) ++ [digitChar (n % 10)]
decreasing_by exact Nat.div_lt_self (by omega) (by omega)

/-- Every character a formatted number can contain: digits, a sign, a
decimal point, a thousands separator. -/
def numChars : List Char := decDigits ++ ['-', '.', ',']

/-- Decimal rendering of an integer. -/
def intChars (i : ℤ) : List Char :=
  (if i < 0 then ['-'] else []) ++ natChars i.natAbs

/-- Rendering of a rational with two decimal places (the `:.2f` and
`:,.2f` format specifiers, separators and rounding mode abstracted). -/
def ratChars2 (q : ℚ) : List Char :=
  let c : ℤ := ⌊q * 100⌋
  (if c < 0 then ['-'] else []) ++ natChars (c.natAbs / 100) ++
    '.' :: [digitChar (c.natAbs / 10 % 10), digitChar (c.natAbs % 10)]

/-- `{n}` for a natural number. -/
def fmtNat (n : ℕ) : String := String.mk (natChars n)

/-- `{i:,.0f}` for an integer amount. -/
def fmtInt (i : ℤ) : String := String.mk (intChars i)

/-- `{q:,.2f}` / `{q:.2f}` for a rational amount. -/
def fmtQ2 (q : ℚ) : String := String.mk (ratChars2 q)

/-! ## Narrative insight generator: `agents/insights_agent.py` -/

namespace AIInsightsAgent

/-- The characters `_structure_insights` left-strips from a recognized
line: `'0123456789.•- '`. -/
def lstripChars : List Char :=
  ['0', '1', '2', '3', '4', '5', '6', '7', '8', '9', '.', '•', '-', ' ']

/-- Python `str.strip()`: whitespace removed from both ends. -/
def pyStrip (l : List Char) : List Char :=
  ((l.dropWhile Char.isWhitespace).reverse.dropWhile Char.isWhitespace).reverse

/-- `_structure_insights`: split the model output into lines, keep the
lines opening with a digit or a bullet, strip the prefix, drop what ends up
empty, and keep at most the first four. -/
def _structure_insights (ai_insights : String) : List String :=
  ((ai_insights.data.splitOn '\n').filterMap (fun raw =>
    let line := pyStrip raw
    match line with
    | [] => none
    | c :: _ =>
        if c.isDigit ∨ c = '•' ∨ c = '-' then
          let clean := pyStrip (line.dropWhile (fun ch => ch ∈ lstripChars))
          if clean.isEmpty then none else some (String.mk clean)
        else none)).take 4

/-- `_generate_fallback_insights`: two statements from the market-overview
numbers, plus — only when the `price_trends` entry is a non-empty dict — a
sentiment statement whose phrasing is chosen by the sign of
`average_24h_change`. -/
def _generate_fallback_insights
    (analysis_results : Option NodeAnalysisResults) : List String :=
  let mo := analysis_results.map (fun r => r.market_overview)
  let total := (mo.map (fun m => m.total_cryptos_analyzed)).getD 0
  let mcap := (mo.map (fun m => m.total_market_cap)).getD 0
  let avgp := (mo.map (fun m => m.average_price)).getD 0
  let insights :=
    ["Market analysis covers " ++ fmtNat total ++
       " cryptocurrencies with total market cap of $" ++ fmtInt mcap,
     "Average cryptocurrency price in this dataset is $" ++ fmtQ2 avgp]
  match analysis_results.bind (fun r => r.price_trends) with
  | none => insights
  | some pt =>
      let avg_change := pt.average_24h_change
      insights ++
        [if 0 < avg_change then
          "Market shows positive momentum with average 24h change of +" ++
            fmtQ2 avg_change ++ "%"
        else
          "Market shows bearish sentiment with average 24h change of " ++
            fmtQ2 avg_change ++ "%"]

/-- `generate_insights`.  `remote` is the outcome of the OpenAI chat call
(and of everything else inside the `try`): on success the structured
insights are stored and the stage completes; on failure only the stage's
own fields are written — status, error message, and the deterministic
fallback insights. -/
def generate_insights (remote : Except String String)
    (s : CryptoAnalysisState) : CryptoAnalysisState :=
  match remote with
  | .ok text =>
      { s with ai_insights := some (_structure_insights text),
               insights_status := some "completed" }
  | .error e =>
      { s with insights_status := some "failed",
               insights_error := some e,
               ai_insights := some (_generate_fallback_insights s.analysis_results) }

end AIInsightsAgent

/-! ## Chart renderer state writes: `agents/visualization_agent.py` -/

namespace VisualizationAgent

/-- `generate_charts`.  The matplotlib/file work inside the `try` block
writes no state field until the final success lines, so the whole body is
its outcome: `.ok paths` stores the chart paths and completes the stage,
`.error e` (any exception, including the empty-data guard) marks only the
stage's own status and error fields. -/
def generate_charts (outcome : Except String (List String))
    (s : CryptoAnalysisState) : CryptoAnalysisState :=
  match outcome with
  | .ok paths =>
      { s with chart_paths := some paths,
               visualization_status := some "completed" }
  | .error e =>
      { s with visualization_status := some "failed",
               visualization_error := some e }

end VisualizationAgent

/-! ## Sample inputs used by the witness theorems -/

/-- A raw record that passes validation, carrying a 24h change. -/
def sampleRaw : RawRecord :=
  { id := some "bitcoin", symbol := some "btc", name := some "Bitcoin",
    current_price := some 100, market_cap := some (some 1000),
    market_cap_rank := some (some 1), total_volume := some (some 50),
    price_change_percentage_24h := some (some 2),
    price_change_percentage_7d := some none,
    price_change_percentage_30d := some none,
    image := some none, last_updated := some none }

/-- A raw record that fails validation (no `current_price`). -/
def sampleBadRaw : RawRecord :=
  { id := some "broken", symbol := some "brk", name := some "Broken",
    current_price := none, market_cap := none, market_cap_rank := none,
    total_volume := none, price_change_percentage_24h := none,
    price_change_percentage_7d := none, price_change_percentage_30d := none,
    image := none, last_updated := none }

/-- The fresh state of a default request. -/
def initState : CryptoAnalysisState :=
  SchemaConverter.request_to_langgraph_state 10 "usd" "t0"

/-! ## C10: state-to-response conversion -/

/-- C10: for every final pipeline state, `langgraph_state_to_response`
returns status `success` if and only if `workflow_status` equals
`completed` (anything else yields `error`, the only other possible
status), and the response's `crypto_count` always equals the length of
`validated_crypto_data`. -/
theorem C10_state_to_response (s : CryptoAnalysisState) :
    ((SchemaConverter.langgraph_state_to_response s).status = "success" ↔
      s.workflow_status = "completed")
    ∧ ((SchemaConverter.langgraph_state_to_response s).status = "success" ∨
       (SchemaConverter.langgraph_state_to_response s).status = "error")
    ∧ (SchemaConverter.langgraph_state_to_response s).crypto_count =
        s.validated_crypto_data.length := by
  unfold SchemaConverter.langgraph_state_to_response
  by_cases h : s.workflow_status = "completed" <;> simp [h]

/-! ## C7: the validator is a total partition of its input -/

/-- C7: validation returns a result covering all inputs without aborting
on any record; the validated output is exactly the parse of the records
that pass, the error list exactly one wrapped message per record that
fails, so each raw record contributes to exactly one of the two and the
lengths add up to the raw input length. -/
theorem C7_validator_partition (raw : List RawRecord) :
    (SchemaConverter.validate_raw_crypto_data raw).1.length +
      (SchemaConverter.validate_raw_crypto_data raw).2.length = raw.length
    ∧ (SchemaConverter.validate_raw_crypto_data raw).1 =
        raw.filterMap (fun r => (pydantic_validate r).toOption)
    ∧ (SchemaConverter.validate_raw_crypto_data raw).2 =
        raw.filterMap (fun r =>
          match pydantic_validate r with
          | .ok _ => none
          | .error e => some (SchemaConverter.validation_error_for r e)) := by
  induction raw with
  | nil => simp [SchemaConverter.validate_raw_crypto_data]
  | cons item rest ih =>
      obtain ⟨ih1, ih2, ih3⟩ := ih
      rcases hv : pydantic_validate item with e | d
      · refine ⟨?_, ?_, ?_⟩
        · simp only [SchemaConverter.validate_raw_crypto_data, hv,
            List.length_cons]
          omega
        · simp [SchemaConverter.validate_raw_crypto_data, hv, Except.toOption, ih2]
        · simp [SchemaConverter.validate_raw_crypto_data, hv, ih3]
      · refine ⟨?_, ?_, ?_⟩
        · simp only [SchemaConverter.validate_raw_crypto_data, hv,
            List.length_cons]
          omega
        · simp [SchemaConverter.validate_raw_crypto_data, hv, Except.toOption, ih2]
        · simp [SchemaConverter.validate_raw_crypto_data, hv, ih3]

/-! ## C1: orchestrator routing and terminal status -/

/-- C1: after data collection the pipeline enters analysis iff
`data_collection_status` is `completed` (otherwise the error handler);
after analysis it terminates iff `analysis_status` is `completed`, setting
`workflow_status = "completed"` there (otherwise the error handler); the
error handler always terminates with `workflow_status =
"completed_with_errors"` and exactly one diagnostic warning appended;
hence every run ends with `workflow_status` one of the two terminal
values. -/
theorem C1_orchestrator_routing (fetch : Except String (List RawRecord))
    (now : String) (s0 : CryptoAnalysisState) :
    (should_continue_to_analysis (data_collection_node fetch now s0) = "analysis" ↔
      (data_collection_node fetch now s0).data_collection_status = "completed")
    ∧ (should_continue_to_analysis (data_collection_node fetch now s0) = "analysis"
       ∨ should_continue_to_analysis (data_collection_node fetch now s0) = "error_handler")
    ∧ (∀ s2 : CryptoAnalysisState,
        ((check_workflow_completion s2).2 = END_SENTINEL ↔
          s2.analysis_status = "completed")
        ∧ (s2.analysis_status = "completed" →
            (check_workflow_completion s2).1.workflow_status = "completed")
        ∧ ((check_workflow_completion s2).2 = END_SENTINEL ∨
           (check_workflow_completion s2).2 = "error_handler"))
    ∧ (∀ (now2 : String) (s : CryptoAnalysisState),
        (error_handling_node now2 s).workflow_status = "completed_with_errors"
        ∧ (error_handling_node now2 s).warnings = s.warnings ++ [errorHandlerWarning])
    ∧ ((run_workflow fetch now s0).workflow_status = "completed" ∨
       (run_workflow fetch now s0).workflow_status = "completed_with_errors") := by
  have hroute : ∀ s1 : CryptoAnalysisState,
      (should_continue_to_analysis s1 = "analysis" ↔
        s1.data_collection_status = "completed")
      ∧ (should_continue_to_analysis s1 = "analysis" ∨
         should_continue_to_analysis s1 = "error_handler") := by
    intro s1
    unfold should_continue_to_analysis
    by_cases h : s1.data_collection_status = "completed" <;> simp [h]
  have hcheck : ∀ s2 : CryptoAnalysisState,
      ((check_workflow_completion s2).2 = END_SENTINEL ↔
        s2.analysis_status = "completed")
      ∧ (s2.analysis_status = "completed" →
          (check_workflow_completion s2).1.workflow_status = "completed")
      ∧ ((check_workflow_completion s2).2 = END_SENTINEL ∨
         (check_workflow_completion s2).2 = "error_handler") := by
    intro s2
    unfold check_workflow_completion
    by_cases h : s2.analysis_status = "completed" <;> simp [h, END_SENTINEL]
  refine ⟨(hroute _).1, (hroute _).2, hcheck, fun now2 s => ⟨rfl, rfl⟩, ?_⟩
  unfold run_workflow
  by_cases h1 : should_continue_to_analysis (data_collection_node fetch now s0) =
      "analysis"
  · simp only [h1, if_true]
    by_cases h2 : (analysis_node now (data_collection_node fetch now s0)).analysis_status
        = "completed"
    · have he := (hcheck (analysis_node now (data_collection_node fetch now s0))).1.mpr h2
      simp only [he, if_true]
      exact Or.inl ((hcheck _).2.1 h2)
    · have hne : (check_workflow_completion
          (analysis_node now (data_collection_node fetch now s0))).2 ≠ END_SENTINEL := by
        intro hc
        exact h2 ((hcheck _).1.mp hc)
      simp only [hne, if_false]
      exact Or.inr rfl
  · simp only [h1, if_false]
    exact Or.inr rfl

/-! ## C2: `has_price_changes` reflects the validated records -/

/-- C2: whenever the data-collection stage finishes with status
`completed` (the only case in which analysis is entered),
`has_price_changes` is `true` iff some record of `validated_crypto_data`
carries a non-`None` 24h change. -/
theorem C2_has_price_changes (fetch : Except String (List RawRecord))
    (now : String) (s0 : CryptoAnalysisState)
    (h : (data_collection_node fetch now s0).data_collection_status = "completed") :
    ((data_collection_node fetch now s0).has_price_changes = true ↔
      ∃ r ∈ (data_collection_node fetch now s0).validated_crypto_data,
        r.price_change_percentage_24h.isSome) := by
  rcases fetch with e | raw_data
  · exact absurd h (by simp [data_collection_node])
  · unfold data_collection_node at h ⊢
    by_cases hempty :
        (SchemaConverter.validate_raw_crypto_data raw_data).1.isEmpty
    · simp [hempty] at h
    · simp only [hempty, if_false]
      simpa using List.any_eq_true

/-- Witness for C2: a one-record fetch that validates, with a 24h change
present. -/
theorem C2_has_price_changes_witness :
    (data_collection_node (.ok [sampleRaw]) "t1" initState).has_price_changes = true ↔
      ∃ r ∈ (data_collection_node (.ok [sampleRaw]) "t1" initState).validated_crypto_data,
        r.price_change_percentage_24h.isSome :=
  C2_has_price_changes (.ok [sampleRaw]) "t1" initState (by decide)

/-! ## C3: data-collection failure short-circuits to the error path -/

/-- C3: if the fetch raises a transport error, or validation of a
non-empty raw batch leaves zero survivors, then the collection stage is
`failed`, routing goes to the error handler (so the analysis node is never
invoked: the run *equals* the error-handler path applied right after data
collection), the raised resp. generated message is in the error list, and
the run terminates with `workflow_status = "completed_with_errors"`. -/
theorem C3_collection_failure (fetch : Except String (List RawRecord))
    (now : String) (s0 : CryptoAnalysisState) (e : String)
    (raw : List RawRecord)
    (h : fetch = .error e ∨
        (fetch = .ok raw ∧ raw ≠ [] ∧
          (SchemaConverter.validate_raw_crypto_data raw).1 = [])) :
    (data_collection_node fetch now s0).data_collection_status = "failed"
    ∧ should_continue_to_analysis (data_collection_node fetch now s0) =
        "error_handler"
    ∧ run_workflow fetch now s0 =
        error_handling_node now (data_collection_node fetch now s0)
    ∧ (run_workflow fetch now s0).workflow_status = "completed_with_errors"
    ∧ (run_workflow fetch now s0).data_collection_status = "failed"
    ∧ (fetch = .error e → e ∈ (run_workflow fetch now s0).errors)
    ∧ (fetch = .ok raw →
        "No valid crypto data after validation" ∈ (run_workflow fetch now s0).errors) := by
  have hfail : (data_collection_node fetch now s0).data_collection_status = "failed" := by
    rcases h with rfl | ⟨rfl, _, hzero⟩
    · rfl
    · simp [data_collection_node, List.isEmpty_iff, hzero]
  have hroute : should_continue_to_analysis (data_collection_node fetch now s0) =
      "error_handler" := by
    unfold should_continue_to_analysis
    rw [hfail]
    simp
  have hrun : run_workflow fetch now s0 =
      error_handling_node now (data_collection_node fetch now s0) := by
    simp [run_workflow, hroute]
  have herr : (run_workflow fetch now s0).errors =
      (data_collection_node fetch now s0).errors := by
    rw [hrun]
    rfl
  refine ⟨hfail, hroute, hrun, by rw [hrun]; rfl, by rw [hrun]; exact hfail, ?_, ?_⟩
  · rintro rfl
    rw [herr]
    simp [data_collection_node]
  · rintro rfl
    rw [herr]
    rcases h with hbad | ⟨-, -, hzero⟩
    · exact absurd hbad (by simp)
    · simp [data_collection_node, List.isEmpty_iff, hzero]

/-- Witness for C3: a fetch that raises `API Error: boom`. -/
theorem C3_collection_failure_witness :
    (data_collection_node (.error "API Error: boom") "t2" initState).data_collection_status = "failed"
    ∧ should_continue_to_analysis
        (data_collection_node (.error "API Error: boom") "t2" initState) = "error_handler"
    ∧ run_workflow (.error "API Error: boom") "t2" initState =
        error_handling_node "t2"
          (data_collection_node (.error "API Error: boom") "t2" initState)
    ∧ (run_workflow (.error "API Error: boom") "t2" initState).workflow_status =
        "completed_with_errors"
    ∧ (run_workflow (.error "API Error: boom") "t2" initState).data_collection_status =
        "failed"
    ∧ ((.error "API Error: boom" : Except String (List RawRecord)) = .error "API Error: boom" →
        "API Error: boom" ∈ (run_workflow (.error "API Error: boom") "t2" initState).errors)
    ∧ ((.error "API Error: boom" : Except String (List RawRecord)) = .ok [] →
        "No valid crypto data after validation" ∈
          (run_workflow (.error "API Error: boom") "t2" initState).errors) :=
  C3_collection_failure (.error "API Error: boom") "t2" initState
    "API Error: boom" [] (Or.inl rfl)

/-! ## Facts about `pyMin`, `pyMax`, `pyMedian` -/

lemma foldl_min_mem (t : List ℚ) (h : ℚ) : t.foldl min h ∈ h :: t := by
  induction t generalizing h with
  | nil => simp
  | cons a t ih =>
      simp only [List.foldl_cons]
      rcases List.mem_cons.mp (ih (min h a)) with hm | hm
      · rcases min_choice h a with hc | hc <;> rw [hm, hc] <;> simp
      · simp [hm]

lemma foldl_min_le (t : List ℚ) : ∀ h x : ℚ, x ∈ h :: t → t.foldl min h ≤ x := by
  induction t with
  | nil =>
      intro h x hx
      simp only [List.mem_singleton] at hx
      simp [hx]
  | cons a t ih =>
      intro h x hx
      simp only [List.foldl_cons]
      have hbase : t.foldl min (min h a) ≤ min h a :=
        ih (min h a) (min h a) (List.mem_cons_self _ _)
      rcases List.mem_cons.mp hx with rfl | hx1
      · exact hbase.trans (min_le_left _ _)
      · rcases List.mem_cons.mp hx1 with rfl | hx2
        · exact hbase.trans (min_le_right _ _)
        · exact ih (min h a) x (List.mem_cons_of_mem _ hx2)

lemma foldl_max_mem (t : List ℚ) (h : ℚ) : t.foldl max h ∈ h :: t := by
  induction t generalizing h with
  | nil => simp
  | cons a t ih =>
      simp only [List.foldl_cons]
      rcases List.mem_cons.mp (ih (max h a)) with hm | hm
      · rcases max_choice h a with hc | hc <;> rw [hm, hc] <;> simp
      · simp [hm]

lemma le_foldl_max (t : List ℚ) : ∀ h x : ℚ, x ∈ h :: t → x ≤ t.foldl max h := by
  induction t with
  | nil =>
      intro h x hx
      simp only [List.mem_singleton] at hx
      simp [hx]
  | cons a t ih =>
      intro h x hx
      simp only [List.foldl_cons]
      have hbase : max h a ≤ t.foldl max (max h a) :=
        ih (max h a) (max h a) (List.mem_cons_self _ _)
      rcases List.mem_cons.mp hx with rfl | hx1
      · exact (le_max_left _ _).trans hbase
      · rcases List.mem_cons.mp hx1 with rfl | hx2
        · exact (le_max_right _ _).trans hbase
        · exact ih (max h a) x (List.mem_cons_of_mem _ hx2)

lemma pyMin_mem (l : List ℚ) (hl : l ≠ []) : pyMin l ∈ l := by
  cases l with
  | nil => exact absurd rfl hl
  | cons h t => exact foldl_min_mem t h

lemma pyMin_le (l : List ℚ) (x : ℚ) (hx : x ∈ l) : pyMin l ≤ x := by
  cases l with
  | nil => cases hx
  | cons h t => exact foldl_min_le t h x hx

lemma helperIsEmptyTrue {α : Type} {l : List α} (h : l = []) : l.isEmpty = true := by
  subst h
  rfl

lemma helperIsEmptyFalse {α : Type} {l : List α} (h : l ≠ []) : l.isEmpty = false := by
  cases l with
  | nil => exact absurd rfl h
  | cons a t => rfl

lemma pyMax_mem (l : List ℚ) (hl : l ≠ []) : pyMax l ∈ l := by
  cases l with
  | nil => exact absurd rfl hl
  | cons h t => exact foldl_max_mem t h

lemma le_pyMax (l : List ℚ) (x : ℚ) (hx : x ∈ l) : x ≤ pyMax l := by
  cases l with
  | nil => cases hx
  | cons h t => exact le_foldl_max t h x hx

/-- `statistics.median` sorts ascending; any ascending sorted permutation
of the data is *the* sorted list, so the median is determined by it. -/
lemma pyMedian_eq_of_sorted_perm (l s : List ℚ) (hp : s.Perm l)
    (hs : s.Sorted (· ≤ ·)) :
    pyMedian l =
      if l.length % 2 = 1 then s.getD (l.length / 2) 0
      else (s.getD (l.length / 2 - 1) 0 + s.getD (l.length / 2) 0) / 2 := by
  have hsorted : (l.mergeSort (fun a b => decide (a ≤ b))).Sorted (· ≤ ·) := by
    have hp := @List.sorted_mergeSort ℚ (fun a b : ℚ => decide (a ≤ b))
      (fun a b c hab hbc => by
        simp only [decide_eq_true_eq] at *
        exact hab.trans hbc)
      (fun a b => by simpa using le_total a b) l
    simpa [List.Sorted] using hp
  have hperm : s.Perm (l.mergeSort (fun a b => decide (a ≤ b))) :=
    hp.trans (List.mergeSort_perm l _).symm
  have heq : s = l.mergeSort (fun a b => decide (a ≤ b)) :=
    List.eq_of_perm_of_sorted hperm hs hsorted
  rw [pyMedian, heq]

/-- The truthiness filter drops exactly the `None` and `0` market caps, so
its sum equals the missing-as-`0` sum over all records. -/
lemma sum_market_caps_eq (l : List CryptoData) :
    (((l.filter fun c => pyTruthyZ c.market_cap).map
        fun c => c.market_cap.getD 0)).sum =
      (l.map fun c => c.market_cap.getD 0).sum := by
  induction l with
  | nil => rfl
  | cons c t ih =>
      by_cases hc : pyTruthyZ c.market_cap = true
      · simp [List.filter_cons, hc, ih]
      · have hz : c.market_cap.getD 0 = 0 := by
          rcases hm : c.market_cap with _ | z
          · rfl
          · simp only [pyTruthyZ, hm, decide_eq_true_eq] at hc
            simp [Option.getD, hm]
            omega
        simp [List.filter_cons, hc, ih, hz]


/-! ## C4: the market overview of the statistics engine -/

/-- A record with a non-zero price, a market cap and a 24h change. -/
def sampleCoinA : CryptoData :=
  { id := "a", symbol := "a", name := "A", current_price := 4,
    market_cap := some 7, market_cap_rank := some 1, total_volume := some 1,
    price_change_percentage_24h := some 1, price_change_percentage_7d := none,
    price_change_percentage_30d := none, image := none, last_updated := none }

/-- A record with price `0`, a `null` market cap and no 24h change. -/
def sampleCoinB : CryptoData :=
  { id := "b", symbol := "b", name := "B", current_price := 0,
    market_cap := none, market_cap_rank := some 2, total_volume := some 2,
    price_change_percentage_24h := none, price_change_percentage_7d := none,
    price_change_percentage_30d := none, image := none, last_updated := none }

/-- A two-record validated set exercising the truthiness filters. -/
def sampleCoins : List CryptoData := [sampleCoinA, sampleCoinB]


lemma mo_total_eq (l : List CryptoData) :
    (AnalysisAgent._analyze_market_overview l).total_cryptos_analyzed =
      l.length := rfl

lemma mo_mcap_eq (l : List CryptoData) :
    (AnalysisAgent._analyze_market_overview l).total_market_cap =
      (AnalysisAgent.marketCapsOf l).sum := rfl

lemma mo_avg_eq (l : List CryptoData) :
    (AnalysisAgent._analyze_market_overview l).average_price =
      if (AnalysisAgent.pricesOf l).isEmpty then 0
      else (AnalysisAgent.pricesOf l).sum / (AnalysisAgent.pricesOf l).length := rfl

lemma mo_median_eq (l : List CryptoData) :
    (AnalysisAgent._analyze_market_overview l).median_price =
      if (AnalysisAgent.pricesOf l).isEmpty then 0
      else pyMedian (AnalysisAgent.pricesOf l) := rfl

lemma mo_min_eq (l : List CryptoData) :
    (AnalysisAgent._analyze_market_overview l).price_range_min =
      if (AnalysisAgent.pricesOf l).isEmpty then 0
      else pyMin (AnalysisAgent.pricesOf l) := rfl

lemma mo_max_eq (l : List CryptoData) :
    (AnalysisAgent._analyze_market_overview l).price_range_max =
      if (AnalysisAgent.pricesOf l).isEmpty then 0
      else pyMax (AnalysisAgent.pricesOf l) := rfl

/-- C4: for every non-empty record set, `_analyze_market_overview` reports
the input length, the missing-as-`0` market-cap sum, and mean, median, min
and max over the price set — the prices kept by the truthiness
comprehension `if coin["current_price"]`, i.e. the records carrying a
(non-zero) price — with all four price statistics `0` when that set is
empty.  The median is characterized against any ascending sorted
permutation of the price set, min and max as members bounding the set. -/
theorem C4_market_overview (l : List CryptoData) (hne : l ≠ []) :
    (AnalysisAgent._analyze_market_overview l).total_cryptos_analyzed = l.length
    ∧ (AnalysisAgent._analyze_market_overview l).total_market_cap =
        (l.map fun c => c.market_cap.getD 0).sum
    ∧ (AnalysisAgent.pricesOf l = [] →
        (AnalysisAgent._analyze_market_overview l).average_price = 0
        ∧ (AnalysisAgent._analyze_market_overview l).median_price = 0
        ∧ (AnalysisAgent._analyze_market_overview l).price_range_min = 0
        ∧ (AnalysisAgent._analyze_market_overview l).price_range_max = 0)
    ∧ (AnalysisAgent.pricesOf l ≠ [] →
        (AnalysisAgent._analyze_market_overview l).average_price =
          (AnalysisAgent.pricesOf l).sum / (AnalysisAgent.pricesOf l).length
        ∧ (∀ s : List ℚ, s.Perm (AnalysisAgent.pricesOf l) →
            s.Sorted (· ≤ ·) →
            (AnalysisAgent._analyze_market_overview l).median_price =
              if (AnalysisAgent.pricesOf l).length % 2 = 1 then
                s.getD ((AnalysisAgent.pricesOf l).length / 2) 0
              else (s.getD ((AnalysisAgent.pricesOf l).length / 2 - 1) 0 +
                    s.getD ((AnalysisAgent.pricesOf l).length / 2) 0) / 2)
        ∧ (AnalysisAgent._analyze_market_overview l).price_range_min ∈
            AnalysisAgent.pricesOf l
        ∧ (∀ x ∈ AnalysisAgent.pricesOf l,
            (AnalysisAgent._analyze_market_overview l).price_range_min ≤ x)
        ∧ (AnalysisAgent._analyze_market_overview l).price_range_max ∈
            AnalysisAgent.pricesOf l
        ∧ (∀ x ∈ AnalysisAgent.pricesOf l,
            x ≤ (AnalysisAgent._analyze_market_overview l).price_range_max)) := by
  refine ⟨rfl, ?_, ?_, ?_⟩
  · rw [mo_mcap_eq]
    exact sum_market_caps_eq l
  · intro hempty
    have he := helperIsEmptyTrue hempty
    rw [mo_avg_eq, mo_median_eq, mo_min_eq, mo_max_eq, he]
    simp
  · intro hne'
    have he := helperIsEmptyFalse hne'
    rw [mo_avg_eq, mo_median_eq, mo_min_eq, mo_max_eq, he]
    refine ⟨rfl, ?_, ?_, ?_, ?_, ?_⟩
    · intro s hsp hss
      exact pyMedian_eq_of_sorted_perm _ s hsp hss
    · exact pyMin_mem _ hne'
    · intro x hx
      exact pyMin_le _ x hx
    · exact pyMax_mem _ hne'
    · intro x hx
      exact le_pyMax _ x hx

/-- Witness for C4: the two-record sample; the zero-priced record is
dropped from the price set, the `null` market cap counts as `0`. -/
theorem C4_market_overview_witness :
    sampleCoins ≠ []
    ∧ (AnalysisAgent._analyze_market_overview sampleCoins).total_cryptos_analyzed =
        sampleCoins.length
    ∧ (AnalysisAgent._analyze_market_overview sampleCoins).total_market_cap =
        (sampleCoins.map fun c => c.market_cap.getD 0).sum
    ∧ (AnalysisAgent._analyze_market_overview sampleCoins).average_price = 4 := by
  have h := C4_market_overview sampleCoins (by decide)
  refine ⟨by decide, h.1, h.2.1, ?_⟩
  have hav := (h.2.2.2 (by decide)).1
  rw [hav]
  norm_num [AnalysisAgent.pricesOf, sampleCoins, sampleCoinA, sampleCoinB]

/-! ## C5: the `price_trends` entry of the derived results -/

/-- C5: under an accurate `has_price_changes` flag (the invariant the
data-collection stage establishes, C2), the `price_trends` entry of the
derived results is the placeholder note exactly when no record carries a
non-`None` 24h change; otherwise it is the computed mapping whose mean is
the arithmetic mean of the present change values, whose mover counts count
the strictly positive resp. strictly negative changes, and whose
strongest gain / biggest loss are the maximum / minimum present change.
The entry always exists in the mapping: any `ok` result of
`analyze_crypto_data` carries it. -/
theorem C5_price_trends (l : List CryptoData) (flag : Bool)
    (hflag : flag = l.any fun c => c.price_change_percentage_24h.isSome) :
    ((¬ ∃ c ∈ l, c.price_change_percentage_24h.isSome) →
      AnalysisAgent.price_trends_entry flag l =
        .note "Price change data not available")
    ∧ ((∃ c ∈ l, c.price_change_percentage_24h.isSome) →
        ∃ avg pos neg mx mn,
          AnalysisAgent.price_trends_entry flag l = .computed avg pos neg mx mn
          ∧ avg = (l.filterMap fun c => c.price_change_percentage_24h).sum /
              (l.filterMap fun c => c.price_change_percentage_24h).length
          ∧ pos = ((l.filterMap fun c => c.price_change_percentage_24h).filter
              fun c => decide (0 < c)).length
          ∧ neg = ((l.filterMap fun c => c.price_change_percentage_24h).filter
              fun c => decide (c < 0)).length
          ∧ mx ∈ (l.filterMap fun c => c.price_change_percentage_24h)
          ∧ (∀ x ∈ l.filterMap fun c => c.price_change_percentage_24h, x ≤ mx)
          ∧ mn ∈ (l.filterMap fun c => c.price_change_percentage_24h)
          ∧ (∀ x ∈ l.filterMap fun c => c.price_change_percentage_24h, mn ≤ x))
    ∧ (∀ res, AnalysisAgent.analyze_crypto_data flag l = .ok res →
        res.price_trends = AnalysisAgent.price_trends_entry flag l) := by
  refine ⟨?_, ?_, ?_⟩
  · intro hnone
    have hf : flag = false := by
      rw [hflag]
      rw [List.any_eq_false]
      intro c hc
      simp only [Bool.not_eq_true]
      rcases ho : c.price_change_percentage_24h with _ | q
      · rfl
      · exact absurd ⟨c, hc, by simp [ho]⟩ hnone
    rw [hf]
    rfl
  · intro hsome
    have hf : flag = true := by
      rw [hflag, List.any_eq_true]
      obtain ⟨c, hc, hs⟩ := hsome
      exact ⟨c, hc, hs⟩
    have hch : (l.filterMap fun c => c.price_change_percentage_24h) ≠ [] := by
      intro hnil
      obtain ⟨c, hc, hs⟩ := hsome
      rcases ho : c.price_change_percentage_24h with _ | q
      · rw [ho] at hs
        cases hs
      · have : q ∈ (l.filterMap fun c => c.price_change_percentage_24h) := by
          rw [List.mem_filterMap]
          exact ⟨c, hc, ho⟩
        rw [hnil] at this
        cases this
    have he := helperIsEmptyFalse hch
    refine ⟨_, _, _, _, _, ?_, rfl, rfl, rfl,
      pyMax_mem _ hch, fun x hx => le_pyMax _ x hx,
      pyMin_mem _ hch, fun x hx => pyMin_le _ x hx⟩
    rw [hf]
    show AnalysisAgent._analyze_price_trends l = _
    simp only [AnalysisAgent._analyze_price_trends]
    rw [he]
    rfl
  · intro res hres
    unfold AnalysisAgent.analyze_crypto_data at hres
    by_cases hemp : l.isEmpty
    · rw [if_pos hemp] at hres
      cases hres
    · rw [if_neg hemp] at hres
      rcases hv : AnalysisAgent._analyze_volume l with e | va
      · rw [hv] at hres
        cases hres
      · rcases htp : AnalysisAgent._find_top_performers l with e | tp
        · rw [hv, htp] at hres
          cases hres
        · rw [hv, htp] at hres
          simp only [Except.ok.injEq] at hres
          rw [← hres]

/-- Witness for C5: the two-record sample, flag accurately `true`. -/
theorem C5_price_trends_witness :
    ((¬ ∃ c ∈ sampleCoins, c.price_change_percentage_24h.isSome) →
      AnalysisAgent.price_trends_entry true sampleCoins =
        .note "Price change data not available")
    ∧ ((∃ c ∈ sampleCoins, c.price_change_percentage_24h.isSome) →
        ∃ avg pos neg mx mn,
          AnalysisAgent.price_trends_entry true sampleCoins =
            .computed avg pos neg mx mn
          ∧ avg = (sampleCoins.filterMap fun c => c.price_change_percentage_24h).sum /
              (sampleCoins.filterMap fun c => c.price_change_percentage_24h).length
          ∧ pos = ((sampleCoins.filterMap fun c => c.price_change_percentage_24h).filter
              fun c => decide (0 < c)).length
          ∧ neg = ((sampleCoins.filterMap fun c => c.price_change_percentage_24h).filter
              fun c => decide (c < 0)).length
          ∧ mx ∈ (sampleCoins.filterMap fun c => c.price_change_percentage_24h)
          ∧ (∀ x ∈ sampleCoins.filterMap fun c => c.price_change_percentage_24h, x ≤ mx)
          ∧ mn ∈ (sampleCoins.filterMap fun c => c.price_change_percentage_24h)
          ∧ (∀ x ∈ sampleCoins.filterMap fun c => c.price_change_percentage_24h, mn ≤ x))
    ∧ (∀ res, AnalysisAgent.analyze_crypto_data true sampleCoins = .ok res →
        res.price_trends = AnalysisAgent.price_trends_entry true sampleCoins) :=
  C5_price_trends sampleCoins true (by decide)

/-! ## Stable-sort characterization

A stable descending keyed sort is pinned down without reference to any
particular algorithm: pair each element with its original index, and sort
by the *strict* lexicographic order "larger key first, smaller index
first".  On index-distinct pairs that order is antisymmetric, so a sorted
permutation is unique — and `List.mergeSort` (which is stable) produces
exactly it. -/

/-- The index-refined comparison of a stable descending sort. -/
def pyIdxLe {α β : Type} [LinearOrder β] (key : α → β) :
    ℕ × α → ℕ × α → Bool :=
  List.enumLE (pyDescLe key)

lemma pyIdxLe_iff {α β : Type} [LinearOrder β] (key : α → β) (a b : ℕ × α) :
    pyIdxLe key a b = true ↔
      key b.2 < key a.2 ∨ (key b.2 = key a.2 ∧ a.1 ≤ b.1) := by
  unfold pyIdxLe List.enumLE pyDescLe
  by_cases h1 : key b.2 ≤ key a.2 <;> by_cases h2 : key a.2 ≤ key b.2 <;>
    simp [h1, h2]
  · constructor
    · intro hab
      exact Or.inr ⟨le_antisymm h1 h2, hab⟩
    · rintro (hlt | ⟨-, hab⟩)
      · exact absurd h2 (not_le_of_lt hlt)
      · exact hab
  · exact Or.inl (lt_of_le_not_le h1 h2)
  · intro h
    exact absurd h.le h1
  · exact absurd (le_total (key a.2) (key b.2)) (by simp [h1, h2])

lemma pyIdxLe_trans {α β : Type} [LinearOrder β] (key : α → β)
    (a b c : ℕ × α) (hab : pyIdxLe key a b = true)
    (hbc : pyIdxLe key b c = true) : pyIdxLe key a c = true := by
  rw [pyIdxLe_iff] at hab hbc ⊢
  rcases hab with h1 | ⟨h1, h1i⟩ <;> rcases hbc with h2 | ⟨h2, h2i⟩
  · exact Or.inl (h2.trans h1)
  · exact Or.inl (h2 ▸ h1)
  · exact Or.inl (lt_of_lt_of_le h2 h1.le)
  · exact Or.inr ⟨h2.trans h1, h1i.trans h2i⟩

lemma pyIdxLe_total {α β : Type} [LinearOrder β] (key : α → β)
    (a b : ℕ × α) : (pyIdxLe key a b || pyIdxLe key b a) = true := by
  rcases lt_trichotomy (key a.2) (key b.2) with h | h | h
  · simp [pyIdxLe_iff, h]
  · rcases Nat.le_total a.1 b.1 with hi | hi
    · have hab : pyIdxLe key a b = true :=
        (pyIdxLe_iff key a b).mpr (Or.inr ⟨h.symm, hi⟩)
      simp [hab]
    · have hba : pyIdxLe key b a = true :=
        (pyIdxLe_iff key b a).mpr (Or.inr ⟨h, hi⟩)
      simp [hba]
  · simp [pyIdxLe_iff, h]

lemma pyIdxLe_antisymm_fst {α β : Type} [LinearOrder β] (key : α → β)
    (a b : ℕ × α) (hab : pyIdxLe key a b = true)
    (hba : pyIdxLe key b a = true) : a.1 = b.1 := by
  rw [pyIdxLe_iff] at hab hba
  rcases hab with h1 | ⟨h1, h1i⟩ <;> rcases hba with h2 | ⟨h2, h2i⟩
  · exact absurd h1 (not_lt_of_lt h2)
  · exact absurd h1 (not_lt_of_le h2.le)
  · exact absurd h2 (not_lt_of_le h1.le)
  · exact le_antisymm h1i h2i

/-- Two sorted permutations of the same index-distinct list coincide. -/
lemma sorted_perm_unique {α β : Type} [LinearOrder β] (key : α → β) :
    ∀ (l₁ l₂ : List (ℕ × α)), l₁.Perm l₂ → (l₁.map Prod.fst).Nodup →
      l₁.Sorted (fun a b => pyIdxLe key a b = true) →
      l₂.Sorted (fun a b => pyIdxLe key a b = true) → l₁ = l₂ := by
  intro l₁
  induction l₁ with
  | nil =>
      intro l₂ hp _ _ _
      exact (hp.symm.eq_nil).symm
  | cons a t₁ ih =>
      intro l₂ hp hnd hs₁ hs₂
      cases l₂ with
      | nil => exact absurd hp.eq_nil (by simp)
      | cons b t₂ =>
          have hab : a = b := by
            by_contra hne
            have hain : a ∈ b :: t₂ := hp.mem_iff.mp (List.mem_cons_self _ _)
            have hbin : b ∈ a :: t₁ := hp.symm.mem_iff.mp (List.mem_cons_self _ _)
            have hat2 : a ∈ t₂ := by
              rcases List.mem_cons.mp hain with h | h
              · exact absurd h hne
              · exact h
            have hbt1 : b ∈ t₁ := by
              rcases List.mem_cons.mp hbin with h | h
              · exact absurd h.symm hne
              · exact h
            have hr1 : pyIdxLe key a b = true :=
              List.rel_of_sorted_cons hs₁ b hbt1
            have hr2 : pyIdxLe key b a = true :=
              List.rel_of_sorted_cons hs₂ a hat2
            have hfst : a.1 = b.1 := pyIdxLe_antisymm_fst key a b hr1 hr2
            have : a.1 ∉ t₁.map Prod.fst := (List.nodup_cons.mp hnd).1
            exact this (hfst ▸ List.mem_map_of_mem Prod.fst hbt1)
          subst hab
          have ht := ih t₂ (hp.cons_inv) (List.nodup_cons.mp hnd).2
            (hs₁.of_cons) (hs₂.of_cons)
          rw [ht]

/-- Any lex-sorted permutation of the indexed input projects to Python's
stable descending sort. -/
lemma stable_sort_char {α β : Type} [LinearOrder β] (key : α → β)
    (l : List α) (F : List (ℕ × α)) (hperm : F.Perm l.enum)
    (hsort : F.Sorted (fun a b => pyIdxLe key a b = true)) :
    F.map Prod.snd = pySortedDesc key l := by
  have hms : (l.enum.mergeSort (pyIdxLe key)).Sorted
      (fun a b => pyIdxLe key a b = true) :=
    List.sorted_mergeSort (pyIdxLe_trans key · · ·) (pyIdxLe_total key) l.enum
  have hmp : (l.enum.mergeSort (pyIdxLe key)).Perm l.enum :=
    List.mergeSort_perm l.enum _
  have hnd : (F.map Prod.fst).Nodup := by
    have hpf : (F.map Prod.fst).Perm (l.enum.map Prod.fst) := hperm.map _
    rw [(hpf.nodup_iff), List.enum_map_fst]
    exact List.nodup_range _
  have hF : F = l.enum.mergeSort (pyIdxLe key) :=
    sorted_perm_unique key F _ (hperm.trans hmp.symm) hnd hsort hms
  rw [hF]
  exact List.mergeSort_enum

/-! ## C6: top performers -/

/-- A record whose 24h change is present but equal to `0.0`: non-`None`,
yet falsy for the truthiness guard of `_find_top_performers`. -/
def c6Coin : CryptoData :=
  { id := "z", symbol := "z", name := "Z", current_price := 1,
    market_cap := some 1, market_cap_rank := some 1, total_volume := some 1,
    price_change_percentage_24h := some 0, price_change_percentage_7d := none,
    price_change_percentage_30d := none, image := none, last_updated := none }


/-- Counterexample to C6 as stated: `[c6Coin]` carries a (zero-valued) 24h
change value, yet the by-24h-change ranking comes back empty, because the
code guards and filters by truthiness (`coin.get(...)` used as a boolean),
not by `is not None`. -/
theorem C6_top_performers_counterexample :
    c6Coin.price_change_percentage_24h.isSome = true
    ∧ AnalysisAgent._find_top_performers [c6Coin] =
        .ok { top_by_market_cap := [("Z", some 1)], top_by_24h_change := [] } := by
  constructor
  · rfl
  · simp only [AnalysisAgent._find_top_performers]
    rw [if_neg (by decide)]
    simp [pySortedDesc, pyTruthyQ, c6Coin]

/-- C6 (amended): for a record set whose market caps are all non-`None`
(otherwise the sort's `None`-vs-`int` comparison raises `TypeError`),
`_find_top_performers` succeeds; `by_market_cap` has length `min 5 n` and
is the take-5 of the stable descending market-cap order (characterized as
any — necessarily unique — permutation of the indexed input sorted by
larger-key-first, smaller-index-first); `by_24h_change` is empty exactly
when no record carries a *non-zero* (truthy) 24h change, and otherwise is
the take-5 of the stable descending change order over the records with
truthy change. -/
theorem C6_top_performers (l : List CryptoData)
    (hm : ∀ c ∈ l, c.market_cap.isSome) :
    ∃ tp, AnalysisAgent._find_top_performers l = .ok tp
    ∧ tp.top_by_market_cap.length = min 5 l.length
    ∧ (∀ F : List (ℕ × CryptoData), F.Perm l.enum →
        F.Sorted (fun a b => pyIdxLe (fun c => c.market_cap.getD 0) a b = true) →
        tp.top_by_market_cap =
          ((F.map Prod.snd).take 5).map fun c => (c.name, c.market_cap))
    ∧ (tp.top_by_24h_change = [] ↔
        ¬ ∃ c ∈ l, pyTruthyQ c.price_change_percentage_24h)
    ∧ tp.top_by_24h_change.length =
        min 5 (l.filter fun c => pyTruthyQ c.price_change_percentage_24h).length
    ∧ (∀ F : List (ℕ × CryptoData),
        F.Perm (l.filter fun c => pyTruthyQ c.price_change_percentage_24h).enum →
        F.Sorted (fun a b =>
          pyIdxLe (fun c => c.price_change_percentage_24h.getD 0) a b = true) →
        tp.top_by_24h_change =
          ((F.map Prod.snd).take 5).map
            fun c => (c.name, c.price_change_percentage_24h)) := by
  have hcond : ¬ (2 ≤ l.length ∧ l.any fun c => c.market_cap.isNone) := by
    rintro ⟨-, hany⟩
    rw [List.any_eq_true] at hany
    obtain ⟨c, hc, hn⟩ := hany
    have hs := hm c hc
    rw [Option.isNone_iff_eq_none] at hn
    rw [hn] at hs
    cases hs
  by_cases hany : (l.any fun c => pyTruthyQ c.price_change_percentage_24h) = true
  · have hfne : (l.filter fun c => pyTruthyQ c.price_change_percentage_24h) ≠ [] := by
      rw [List.any_eq_true] at hany
      obtain ⟨c, hc, ht⟩ := hany
      intro hnil
      have hmem : c ∈ (l.filter fun c => pyTruthyQ c.price_change_percentage_24h) :=
        List.mem_filter.mpr ⟨hc, ht⟩
      rw [hnil] at hmem
      cases hmem
    have hsne : ((pySortedDesc (fun c => c.price_change_percentage_24h.getD 0)
        (l.filter fun c => pyTruthyQ c.price_change_percentage_24h)).take 5) ≠ [] := by
      rw [Ne, List.take_eq_nil_iff]
      push_neg
      refine ⟨by omega, ?_⟩
      intro hnil
      have hlen := @List.length_mergeSort CryptoData
        (pyDescLe fun c => c.price_change_percentage_24h.getD 0)
        (l.filter fun c => pyTruthyQ c.price_change_percentage_24h)
      simp only [pySortedDesc] at hnil
      rw [hnil] at hlen
      simp only [List.length_nil] at hlen
      exact hfne (List.eq_nil_of_length_eq_zero hlen.symm)
    refine ⟨{ top_by_market_cap := ((pySortedDesc (fun c => c.market_cap.getD 0) l).take 5).map (fun c => (c.name, c.market_cap)), top_by_24h_change := ((pySortedDesc (fun c => c.price_change_percentage_24h.getD 0) (l.filter fun c => pyTruthyQ c.price_change_percentage_24h)).take 5).map (fun c => (c.name, c.price_change_percentage_24h)) }, ?_, ?_, ?_, ?_, ?_, ?_⟩
    · simp only [AnalysisAgent._find_top_performers]
      rw [if_neg hcond]
      simp only [hany, if_true, helperIsEmptyFalse hsne, Bool.false_eq_true,
        if_false]
    · simp only [List.length_map, List.length_take, pySortedDesc,
        List.length_mergeSort]
    · intro F hp hs
      have hchar := stable_sort_char (fun c => c.market_cap.getD 0) l F hp hs
      rw [hchar]
    · simp only [List.map_eq_nil_iff]
      constructor
      · intro hmapnil
        exact absurd hmapnil hsne
      · intro hno
        rw [List.any_eq_true] at hany
        obtain ⟨c, hc, ht⟩ := hany
        exact absurd ⟨c, hc, ht⟩ hno
    · simp only [List.length_map, List.length_take, pySortedDesc,
        List.length_mergeSort]
    · intro F hp hs
      have hchar := stable_sort_char
        (fun c => c.price_change_percentage_24h.getD 0)
        (l.filter fun c => pyTruthyQ c.price_change_percentage_24h) F hp hs
      rw [hchar]
  · have hf : (l.any fun c => pyTruthyQ c.price_change_percentage_24h) = false :=
      Bool.eq_false_iff.mpr hany
    have hfnil : (l.filter fun c => pyTruthyQ c.price_change_percentage_24h) = [] := by
      rw [List.eq_nil_iff_forall_not_mem]
      intro c hc
      rcases List.mem_filter.mp hc with ⟨hcl, ht⟩
      exact hany (List.any_eq_true.mpr ⟨c, hcl, ht⟩)
    refine ⟨{ top_by_market_cap := ((pySortedDesc (fun c => c.market_cap.getD 0) l).take 5).map (fun c => (c.name, c.market_cap)), top_by_24h_change := [] }, ?_, ?_, ?_, ?_, ?_, ?_⟩
    · simp only [AnalysisAgent._find_top_performers]
      rw [if_neg hcond]
      simp only [hf, Bool.false_eq_true, if_false, List.isEmpty_nil, if_true]
    · simp only [List.length_map, List.length_take, pySortedDesc,
        List.length_mergeSort]
    · intro F hp hs
      have hchar := stable_sort_char (fun c => c.market_cap.getD 0) l F hp hs
      rw [hchar]
    · simp only [true_iff]
      rintro ⟨c, hc, ht⟩
      exact hany (List.any_eq_true.mpr ⟨c, hc, ht⟩)
    · rw [hfnil]
      rfl
    · intro F hp _
      rw [hfnil] at hp
      simp only [List.enum_nil] at hp
      rw [hp.eq_nil]
      rfl

/-- Witness for C6 (amended): a two-record set with non-`None` market
caps. -/
theorem C6_top_performers_witness :
    ∃ tp, AnalysisAgent._find_top_performers [sampleCoinA, c6Coin] = .ok tp
    ∧ tp.top_by_market_cap.length = min 5 ([sampleCoinA, c6Coin] : List CryptoData).length
    ∧ (∀ F : List (ℕ × CryptoData), F.Perm ([sampleCoinA, c6Coin] : List CryptoData).enum →
        F.Sorted (fun a b => pyIdxLe (fun c => c.market_cap.getD 0) a b = true) →
        tp.top_by_market_cap =
          ((F.map Prod.snd).take 5).map fun c => (c.name, c.market_cap))
    ∧ (tp.top_by_24h_change = [] ↔
        ¬ ∃ c ∈ ([sampleCoinA, c6Coin] : List CryptoData),
            pyTruthyQ c.price_change_percentage_24h)
    ∧ tp.top_by_24h_change.length =
        min 5 (([sampleCoinA, c6Coin] : List CryptoData).filter
          fun c => pyTruthyQ c.price_change_percentage_24h).length
    ∧ (∀ F : List (ℕ × CryptoData),
        F.Perm (([sampleCoinA, c6Coin] : List CryptoData).filter
          fun c => pyTruthyQ c.price_change_percentage_24h).enum →
        F.Sorted (fun a b =>
          pyIdxLe (fun c => c.price_change_percentage_24h.getD 0) a b = true) →
        tp.top_by_24h_change =
          ((F.map Prod.snd).take 5).map
            fun c => (c.name, c.price_change_percentage_24h)) :=
  C6_top_performers [sampleCoinA, c6Coin] (by decide)

/-! ## Character-level facts about the number renderings -/

lemma digitChar_mem_numChars (d : ℕ) : digitChar d ∈ numChars := by
  unfold digitChar
  by_cases h : d < decDigits.length
  · have hd : decDigits.getD d '0' = decDigits.get ⟨d, h⟩ := by
      simp [List.getD, List.getElem?_eq_getElem h]
    rw [hd]
    have hmem : decDigits.get ⟨d, h⟩ ∈ decDigits := List.get_mem decDigits d h
    unfold numChars
    exact List.mem_append_left _ hmem
  · rw [List.getD_eq_default decDigits '0' (by omega)]
    decide

lemma natChars_subset (n : ℕ) : ∀ c ∈ natChars n, c ∈ numChars := by
  induction n using Nat.strong_induction_on with
  | _ n ih =>
      intro c hc
      by_cases h10 : n < 10
      · rw [natChars, dif_pos h10] at hc
        simp only [List.mem_singleton] at hc
        subst hc
        exact digitChar_mem_numChars n
      · rw [natChars, dif_neg h10] at hc
        rcases List.mem_append.mp hc with h | h
        · exact ih (n / 10) (Nat.div_lt_self (by omega) (by omega)) c h
        · simp only [List.mem_singleton] at h
          subst h
          exact digitChar_mem_numChars _

lemma natChars_ne_nil (n : ℕ) : natChars n ≠ [] := by
  by_cases h10 : n < 10
  · rw [natChars, dif_pos h10]
    simp
  · rw [natChars, dif_neg h10]
    simp

lemma intChars_subset (i : ℤ) : ∀ c ∈ intChars i, c ∈ numChars := by
  intro c hc
  unfold intChars at hc
  rcases List.mem_append.mp hc with h | h
  · split at h
    · simp only [List.mem_singleton] at h
      subst h
      decide
    · cases h
  · exact natChars_subset _ c h

lemma intChars_ne_nil (i : ℤ) : intChars i ≠ [] := by
  unfold intChars
  intro h
  rcases List.append_eq_nil.mp h with ⟨-, h2⟩
  exact natChars_ne_nil _ h2

lemma ratChars2_subset (q : ℚ) : ∀ c ∈ ratChars2 q, c ∈ numChars := by
  intro c hc
  simp only [ratChars2] at hc
  rcases List.mem_append.mp hc with h | h
  · rcases List.mem_append.mp h with h1 | h1
    · split at h1
      · simp only [List.mem_singleton] at h1
        subst h1
        decide
      · cases h1
    · exact natChars_subset _ c h1
  · rcases List.mem_cons.mp h with h1 | h1
    · subst h1
      decide
    · rcases List.mem_cons.mp h1 with h2 | h2
      · subst h2
        exact digitChar_mem_numChars _
      · rcases List.mem_cons.mp h2 with h3 | h3
        · subst h3
          exact digitChar_mem_numChars _
        · cases h3

lemma ratChars2_ne_nil (q : ℚ) : ratChars2 q ≠ [] := by
  simp only [ratChars2]
  intro h
  rcases List.append_eq_nil.mp h with ⟨-, h2⟩
  cases h2

/-! ## A phrase without number characters cannot straddle a rendered
number -/

/-- If every character of `p` avoids `numChars`, every character of `f`
is in `numChars` and `f` is non-empty, then an occurrence of `p` inside
`a ++ (f ++ b)` must lie entirely inside `a` or entirely inside `b`. -/
lemma not_infix_append_sep (p a f b : List Char)
    (hp : ∀ c ∈ p, c ∉ numChars) (hf : ∀ c ∈ f, c ∈ numChars)
    (hfne : f ≠ []) (ha : ¬ p <:+: a) (hb : ¬ p <:+: b) :
    ¬ p <:+: a ++ (f ++ b) := by
  intro hinf
  have hpne : p ≠ [] := by
    rintro rfl
    exact ha List.nil_infix
  obtain ⟨s, t, hst0⟩ := hinf
  have hst : s ++ (p ++ t) = a ++ (f ++ b) := by
    rw [← List.append_assoc]
    exact hst0
  have hplen : 0 < p.length := List.length_pos.mpr hpne
  have hflen : 0 < f.length := List.length_pos.mpr hfne
  have hlen : s.length + (p.length + t.length) =
      a.length + (f.length + b.length) := by
    have := congrArg List.length hst
    simpa [List.length_append] using this
  by_cases h1 : s.length + p.length ≤ a.length
  · apply ha
    have hpre : (s ++ p) <+: a ++ (f ++ b) := ⟨t, by simpa [List.append_assoc] using hst⟩
    have hpre2 : (s ++ p) <+: a :=
      List.prefix_of_prefix_length_le hpre (List.prefix_append a (f ++ b))
        (by simpa [List.length_append] using h1)
    obtain ⟨w, hw⟩ := hpre2
    exact ⟨s, w, by rw [← hw, List.append_assoc]⟩
  · by_cases h2 : a.length + f.length ≤ s.length
    · apply hb
      have hsuf : (p ++ t) <:+ a ++ (f ++ b) := ⟨s, by simpa [List.append_assoc] using hst⟩
      have hsufb : (p ++ t) <:+ b := by
        rw [← List.reverse_prefix] at hsuf ⊢
        apply List.prefix_of_prefix_length_le hsuf
        · rw [List.reverse_prefix]
          have : b <:+ a ++ (f ++ b) := by
            rw [show a ++ (f ++ b) = (a ++ f) ++ b from by rw [List.append_assoc]]
            exact List.suffix_append _ _
          exact this
        · simp only [List.length_reverse, List.length_append]
          omega
      obtain ⟨w, hw⟩ := hsufb
      exact ⟨w, t, by rw [← hw, List.append_assoc]⟩
    · have hk1 : s.length ≤ max s.length a.length := le_max_left _ _
      have hk2 : a.length ≤ max s.length a.length := le_max_right _ _
      have hkp : max s.length a.length < s.length + p.length := by omega
      have hkf : max s.length a.length < a.length + f.length := by omega
      have hbp : max s.length a.length - s.length < p.length := by omega
      have hbf : max s.length a.length - a.length < f.length := by omega
      have hq : (s ++ (p ++ t))[max s.length a.length]? =
          (a ++ (f ++ b))[max s.length a.length]? := by rw [hst]
      have hqs : (s ++ (p ++ t))[max s.length a.length]? =
          some (p.get ⟨max s.length a.length - s.length, hbp⟩) := by
        rw [List.getElem?_append_right hk1,
          List.getElem?_append_left hbp, List.getElem?_eq_getElem hbp]
        rfl
      have hqa : (a ++ (f ++ b))[max s.length a.length]? =
          some (f.get ⟨max s.length a.length - a.length, hbf⟩) := by
        rw [List.getElem?_append_right hk2,
          List.getElem?_append_left hbf, List.getElem?_eq_getElem hbf]
        rfl
      have hce : p.get ⟨max s.length a.length - s.length, hbp⟩ =
          f.get ⟨max s.length a.length - a.length, hbf⟩ := by
        have hchain := hqs.symm.trans (hq.trans hqa)
        exact Option.some.inj hchain
      have hcp : p.get ⟨max s.length a.length - s.length, hbp⟩ ∈ p :=
        List.get_mem p _ hbp
      have hcf : p.get ⟨max s.length a.length - s.length, hbp⟩ ∈ numChars := by
        rw [hce]
        exact hf _ (List.get_mem f _ hbf)
      exact hp _ hcp hcf

/-- Same, with the rendered number at the end of the string. -/
lemma not_infix_append_fmt_end (p a f : List Char)
    (hp : ∀ c ∈ p, c ∉ numChars) (hf : ∀ c ∈ f, c ∈ numChars)
    (hfne : f ≠ []) (ha : ¬ p <:+: a) : ¬ p <:+: a ++ f := by
  have hb : ¬ p <:+: ([] : List Char) := by
    rw [List.infix_nil]
    rintro rfl
    exact ha List.nil_infix
  have h := not_infix_append_sep p a f [] hp hf hfne ha hb
  simpa using h

/-! ## C8: the deterministic insight fallback -/

lemma fmtNat_data (n : ℕ) : (fmtNat n).data = natChars n := rfl

lemma fmtInt_data (i : ℤ) : (fmtInt i).data = intChars i := rfl

lemma fmtQ2_data (q : ℚ) : (fmtQ2 q).data = ratChars2 q := rfl

/-- The positive-momentum phrasing of the conditional sentiment
statement. -/
def positivePhrase : List Char := "positive momentum".data

/-- The bearish phrasing of the conditional sentiment statement. -/
def bearishPhrase : List Char := "bearish".data

/-- A string free of sentiment language: neither sentiment phrasing
occurs in it. -/
def sentimentFree (s : String) : Prop :=
  ¬ (positivePhrase <:+: s.data) ∧ ¬ (bearishPhrase <:+: s.data)

lemma insight1_sentimentFree (n : ℕ) (m : ℤ) :
    sentimentFree ("Market analysis covers " ++ fmtNat n ++
      " cryptocurrencies with total market cap of $" ++ fmtInt m) := by
  constructor
  · have h : ¬ positivePhrase <:+: "Market analysis covers ".data ++
        (natChars n ++ (" cryptocurrencies with total market cap of $".data ++
          intChars m)) := by
      apply not_infix_append_sep
      · decide
      · exact natChars_subset n
      · exact natChars_ne_nil n
      · decide
      · apply not_infix_append_fmt_end
        · decide
        · exact intChars_subset m
        · exact intChars_ne_nil m
        · decide
    simpa [String.data_append, fmtNat_data, fmtInt_data, List.append_assoc]
      using h
  · have h : ¬ bearishPhrase <:+: "Market analysis covers ".data ++
        (natChars n ++ (" cryptocurrencies with total market cap of $".data ++
          intChars m)) := by
      apply not_infix_append_sep
      · decide
      · exact natChars_subset n
      · exact natChars_ne_nil n
      · decide
      · apply not_infix_append_fmt_end
        · decide
        · exact intChars_subset m
        · exact intChars_ne_nil m
        · decide
    simpa [String.data_append, fmtNat_data, fmtInt_data, List.append_assoc]
      using h

lemma insight2_sentimentFree (q : ℚ) :
    sentimentFree ("Average cryptocurrency price in this dataset is $" ++
      fmtQ2 q) := by
  constructor
  · have h : ¬ positivePhrase <:+:
        "Average cryptocurrency price in this dataset is $".data ++
          ratChars2 q := by
      apply not_infix_append_fmt_end
      · decide
      · exact ratChars2_subset q
      · exact ratChars2_ne_nil q
      · decide
    simpa [String.data_append, fmtQ2_data] using h
  · have h : ¬ bearishPhrase <:+:
        "Average cryptocurrency price in this dataset is $".data ++
          ratChars2 q := by
      apply not_infix_append_fmt_end
      · decide
      · exact ratChars2_subset q
      · exact ratChars2_ne_nil q
      · decide
    simpa [String.data_append, fmtQ2_data] using h

lemma insight3_pos_spec (c : ℚ) :
    (positivePhrase <:+:
      ("Market shows positive momentum with average 24h change of +" ++
        fmtQ2 c ++ "%").data)
    ∧ ¬ (bearishPhrase <:+:
      ("Market shows positive momentum with average 24h change of +" ++
        fmtQ2 c ++ "%").data) := by
  constructor
  · have hstep : positivePhrase <:+:
        "Market shows positive momentum with average 24h change of +".data := by
      decide
    have hext :
        "Market shows positive momentum with average 24h change of +".data <:+:
        ("Market shows positive momentum with average 24h change of +" ++
          fmtQ2 c ++ "%").data := by
      rw [String.data_append, String.data_append]
      rw [List.append_assoc]
      exact (List.prefix_append _ _).isInfix
    exact hstep.trans hext
  · have h : ¬ bearishPhrase <:+:
        "Market shows positive momentum with average 24h change of +".data ++
          (ratChars2 c ++ "%".data) := by
      apply not_infix_append_sep
      · decide
      · exact ratChars2_subset c
      · exact ratChars2_ne_nil c
      · decide
      · decide
    simpa [String.data_append, fmtQ2_data, List.append_assoc] using h

lemma insight3_neg_spec (c : ℚ) :
    (bearishPhrase <:+:
      ("Market shows bearish sentiment with average 24h change of " ++
        fmtQ2 c ++ "%").data)
    ∧ ¬ (positivePhrase <:+:
      ("Market shows bearish sentiment with average 24h change of " ++
        fmtQ2 c ++ "%").data) := by
  constructor
  · have hstep : bearishPhrase <:+:
        "Market shows bearish sentiment with average 24h change of ".data := by
      decide
    have hext :
        "Market shows bearish sentiment with average 24h change of ".data <:+:
        ("Market shows bearish sentiment with average 24h change of " ++
          fmtQ2 c ++ "%").data := by
      rw [String.data_append, String.data_append]
      rw [List.append_assoc]
      exact (List.prefix_append _ _).isInfix
    exact hstep.trans hext
  · have h : ¬ positivePhrase <:+:
        "Market shows bearish sentiment with average 24h change of ".data ++
          (ratChars2 c ++ "%".data) := by
      apply not_infix_append_sep
      · decide
      · exact ratChars2_subset c
      · exact ratChars2_ne_nil c
      · decide
      · decide
    simpa [String.data_append, fmtQ2_data, List.append_assoc] using h

/-- C8: on derived results whose `price_trends` entry is absent (the
falsy-dict case of `if price_trends:`), the fallback returns exactly the
two overview-derived insight strings, both free of sentiment language;
when price-trend data exists it returns those two plus exactly one
sentiment statement, phrased as positive momentum iff the mean 24h change
is strictly positive and as bearish otherwise. -/
theorem C8_fallback_insights (res : NodeAnalysisResults) :
    (res.price_trends = none →
      (AIInsightsAgent._generate_fallback_insights (some res)).length = 2
      ∧ ∀ s ∈ AIInsightsAgent._generate_fallback_insights (some res),
          sentimentFree s)
    ∧ (∀ pt : NodePriceTrends, res.price_trends = some pt →
        ∃ s1 s2 s3,
          AIInsightsAgent._generate_fallback_insights (some res) = [s1, s2, s3]
          ∧ sentimentFree s1 ∧ sentimentFree s2
          ∧ (0 < pt.average_24h_change →
              (positivePhrase <:+: s3.data) ∧ ¬ (bearishPhrase <:+: s3.data))
          ∧ (¬ 0 < pt.average_24h_change →
              (bearishPhrase <:+: s3.data) ∧ ¬ (positivePhrase <:+: s3.data))) := by
  constructor
  · intro hnone
    have hred : AIInsightsAgent._generate_fallback_insights (some res) =
        ["Market analysis covers " ++ fmtNat res.market_overview.total_cryptos_analyzed ++
          " cryptocurrencies with total market cap of $" ++
          fmtInt res.market_overview.total_market_cap,
         "Average cryptocurrency price in this dataset is $" ++
          fmtQ2 res.market_overview.average_price] := by
      have hbind : ((some res).bind fun r => r.price_trends) = none := hnone
      simp only [AIInsightsAgent._generate_fallback_insights, hbind,
        Option.map_some, Option.getD_some]
      rfl
    rw [hred]
    refine ⟨rfl, ?_⟩
    intro s hs
    rcases List.mem_cons.mp hs with rfl | hs1
    · exact insight1_sentimentFree _ _
    · rcases List.mem_cons.mp hs1 with rfl | hs2
      · exact insight2_sentimentFree _
      · cases hs2
  · intro pt hpt
    have hred : AIInsightsAgent._generate_fallback_insights (some res) =
        ["Market analysis covers " ++ fmtNat res.market_overview.total_cryptos_analyzed ++
          " cryptocurrencies with total market cap of $" ++
          fmtInt res.market_overview.total_market_cap,
         "Average cryptocurrency price in this dataset is $" ++
          fmtQ2 res.market_overview.average_price,
         if 0 < pt.average_24h_change then
           "Market shows positive momentum with average 24h change of +" ++
             fmtQ2 pt.average_24h_change ++ "%"
         else
           "Market shows bearish sentiment with average 24h change of " ++
             fmtQ2 pt.average_24h_change ++ "%"] := by
      have hbind : ((some res).bind fun r => r.price_trends) = some pt := hpt
      simp only [AIInsightsAgent._generate_fallback_insights, hbind,
        Option.map_some, Option.getD_some]
      rfl
    refine ⟨_, _, _, hred, insight1_sentimentFree _ _,
      insight2_sentimentFree _, ?_, ?_⟩
    · intro hposavg
      rw [if_pos hposavg]
      exact insight3_pos_spec pt.average_24h_change
    · intro hnegavg
      rw [if_neg hnegavg]
      exact insight3_neg_spec pt.average_24h_change

/-! ## C9: enrichment failures only touch their own fields -/

/-- C9: after a successful analysis (`workflow_status = "completed"`), a
failure in insight generation writes only `insights_status`,
`insights_error` and the fallback `ai_insights`, and a failure in chart
rendering writes only `visualization_status` and `visualization_error`;
every other field of the shared state — `workflow_status`,
`analysis_results`, `validated_crypto_data` and the rest — is unchanged,
so `workflow_status` is never reverted from `"completed"`. -/
theorem C9_enrichment_frame (s : CryptoAnalysisState) (e1 e2 : String)
    (h : s.workflow_status = "completed") :
    ((AIInsightsAgent.generate_insights (.error e1) s).workflow_status = "completed"
      ∧ (AIInsightsAgent.generate_insights (.error e1) s).num_coins = s.num_coins
      ∧ (AIInsightsAgent.generate_insights (.error e1) s).vs_currency = s.vs_currency
      ∧ (AIInsightsAgent.generate_insights (.error e1) s).raw_crypto_data = s.raw_crypto_data
      ∧ (AIInsightsAgent.generate_insights (.error e1) s).validated_crypto_data = s.validated_crypto_data
      ∧ (AIInsightsAgent.generate_insights (.error e1) s).analysis_results = s.analysis_results
      ∧ (AIInsightsAgent.generate_insights (.error e1) s).data_collection_status = s.data_collection_status
      ∧ (AIInsightsAgent.generate_insights (.error e1) s).analysis_status = s.analysis_status
      ∧ (AIInsightsAgent.generate_insights (.error e1) s).has_price_changes = s.has_price_changes
      ∧ (AIInsightsAgent.generate_insights (.error e1) s).warnings = s.warnings
      ∧ (AIInsightsAgent.generate_insights (.error e1) s).errors = s.errors
      ∧ (AIInsightsAgent.generate_insights (.error e1) s).timestamp = s.timestamp
      ∧ (AIInsightsAgent.generate_insights (.error e1) s).chart_paths = s.chart_paths
      ∧ (AIInsightsAgent.generate_insights (.error e1) s).visualization_status = s.visualization_status
      ∧ (AIInsightsAgent.generate_insights (.error e1) s).visualization_error = s.visualization_error
      ∧ (AIInsightsAgent.generate_insights (.error e1) s).insights_status = some "failed"
      ∧ (AIInsightsAgent.generate_insights (.error e1) s).insights_error = some e1
      ∧ (AIInsightsAgent.generate_insights (.error e1) s).ai_insights =
          some (AIInsightsAgent._generate_fallback_insights s.analysis_results))
    ∧ ((VisualizationAgent.generate_charts (.error e2) s).workflow_status = "completed"
      ∧ (VisualizationAgent.generate_charts (.error e2) s).num_coins = s.num_coins
      ∧ (VisualizationAgent.generate_charts (.error e2) s).vs_currency = s.vs_currency
      ∧ (VisualizationAgent.generate_charts (.error e2) s).raw_crypto_data = s.raw_crypto_data
      ∧ (VisualizationAgent.generate_charts (.error e2) s).validated_crypto_data = s.validated_crypto_data
      ∧ (VisualizationAgent.generate_charts (.error e2) s).analysis_results = s.analysis_results
      ∧ (VisualizationAgent.generate_charts (.error e2) s).data_collection_status = s.data_collection_status
      ∧ (VisualizationAgent.generate_charts (.error e2) s).analysis_status = s.analysis_status
      ∧ (VisualizationAgent.generate_charts (.error e2) s).has_price_changes = s.has_price_changes
      ∧ (VisualizationAgent.generate_charts (.error e2) s).warnings = s.warnings
      ∧ (VisualizationAgent.generate_charts (.error e2) s).errors = s.errors
      ∧ (VisualizationAgent.generate_charts (.error e2) s).timestamp = s.timestamp
      ∧ (VisualizationAgent.generate_charts (.error e2) s).ai_insights = s.ai_insights
      ∧ (VisualizationAgent.generate_charts (.error e2) s).insights_status = s.insights_status
      ∧ (VisualizationAgent.generate_charts (.error e2) s).insights_error = s.insights_error
      ∧ (VisualizationAgent.generate_charts (.error e2) s).chart_paths = s.chart_paths
      ∧ (VisualizationAgent.generate_charts (.error e2) s).visualization_status = some "failed"
      ∧ (VisualizationAgent.generate_charts (.error e2) s).visualization_error = some e2) := by
  refine ⟨⟨?_, rfl, rfl, rfl, rfl, rfl, rfl, rfl, rfl, rfl, rfl, rfl, rfl,
      rfl, rfl, rfl, rfl, rfl⟩,
    ⟨?_, rfl, rfl, rfl, rfl, rfl, rfl, rfl, rfl, rfl, rfl, rfl, rfl, rfl,
      rfl, rfl, rfl, rfl⟩⟩
  · rw [show (AIInsightsAgent.generate_insights (.error e1) s).workflow_status =
        s.workflow_status from rfl]
    exact h
  · rw [show (VisualizationAgent.generate_charts (.error e2) s).workflow_status =
        s.workflow_status from rfl]
    exact h

/-- Witness for C9: a completed-analysis state with both enrichment stages
failing. -/
theorem C9_enrichment_frame_witness :
    ((AIInsightsAgent.generate_insights (.error "AI down")
        { initState with workflow_status := "completed" }).workflow_status = "completed"
      ∧ (AIInsightsAgent.generate_insights (.error "AI down")
          { initState with workflow_status := "completed" }).num_coins =
        ({ initState with workflow_status := "completed" } : CryptoAnalysisState).num_coins
      ∧ (AIInsightsAgent.generate_insights (.error "AI down")
          { initState with workflow_status := "completed" }).vs_currency =
        ({ initState with workflow_status := "completed" } : CryptoAnalysisState).vs_currency
      ∧ (AIInsightsAgent.generate_insights (.error "AI down")
          { initState with workflow_status := "completed" }).raw_crypto_data =
        ({ initState with workflow_status := "completed" } : CryptoAnalysisState).raw_crypto_data
      ∧ (AIInsightsAgent.generate_insights (.error "AI down")
          { initState with workflow_status := "completed" }).validated_crypto_data =
        ({ initState with workflow_status := "completed" } : CryptoAnalysisState).validated_crypto_data
      ∧ (AIInsightsAgent.generate_insights (.error "AI down")
          { initState with workflow_status := "completed" }).analysis_results =
        ({ initState with workflow_status := "completed" } : CryptoAnalysisState).analysis_results
      ∧ (AIInsightsAgent.generate_insights (.error "AI down")
          { initState with workflow_status := "completed" }).data_collection_status =
        ({ initState with workflow_status := "completed" } : CryptoAnalysisState).data_collection_status
      ∧ (AIInsightsAgent.generate_insights (.error "AI down")
          { initState with workflow_status := "completed" }).analysis_status =
        ({ initState with workflow_status := "completed" } : CryptoAnalysisState).analysis_status
      ∧ (AIInsightsAgent.generate_insights (.error "AI down")
          { initState with workflow_status := "completed" }).has_price_changes =
        ({ initState with workflow_status := "completed" } : CryptoAnalysisState).has_price_changes
      ∧ (AIInsightsAgent.generate_insights (.error "AI down")
          { initState with workflow_status := "completed" }).warnings =
        ({ initState with workflow_status := "completed" } : CryptoAnalysisState).warnings
      ∧ (AIInsightsAgent.generate_insights (.error "AI down")
          { initState with workflow_status := "completed" }).errors =
        ({ initState with workflow_status := "completed" } : CryptoAnalysisState).errors
      ∧ (AIInsightsAgent.generate_insights (.error "AI down")
          { initState with workflow_status := "completed" }).timestamp =
        ({ initState with workflow_status := "completed" } : CryptoAnalysisState).timestamp
      ∧ (AIInsightsAgent.generate_insights (.error "AI down")
          { initState with workflow_status := "completed" }).chart_paths =
        ({ initState with workflow_status := "completed" } : CryptoAnalysisState).chart_paths
      ∧ (AIInsightsAgent.generate_insights (.error "AI down")
          { initState with workflow_status := "completed" }).visualization_status =
        ({ initState with workflow_status := "completed" } : CryptoAnalysisState).visualization_status
      ∧ (AIInsightsAgent.generate_insights (.error "AI down")
          { initState with workflow_status := "completed" }).visualization_error =
        ({ initState with workflow_status := "completed" } : CryptoAnalysisState).visualization_error
      ∧ (AIInsightsAgent.generate_insights (.error "AI down")
          { initState with workflow_status := "completed" }).insights_status = some "failed"
      ∧ (AIInsightsAgent.generate_insights (.error "AI down")
          { initState with workflow_status := "completed" }).insights_error = some "AI down"
      ∧ (AIInsightsAgent.generate_insights (.error "AI down")
          { initState with workflow_status := "completed" }).ai_insights =
          some (AIInsightsAgent._generate_fallback_insights
            ({ initState with workflow_status := "completed" } : CryptoAnalysisState).analysis_results))
    ∧ ((VisualizationAgent.generate_charts (.error "no display")
        { initState with workflow_status := "completed" }).workflow_status = "completed"
      ∧ (VisualizationAgent.generate_charts (.error "no display")
          { initState with workflow_status := "completed" }).num_coins =
        ({ initState with workflow_status := "completed" } : CryptoAnalysisState).num_coins
      ∧ (VisualizationAgent.generate_charts (.error "no display")
          { initState with workflow_status := "completed" }).vs_currency =
        ({ initState with workflow_status := "completed" } : CryptoAnalysisState).vs_currency
      ∧ (VisualizationAgent.generate_charts (.error "no display")
          { initState with workflow_status := "completed" }).raw_crypto_data =
        ({ initState with workflow_status := "completed" } : CryptoAnalysisState).raw_crypto_data
      ∧ (VisualizationAgent.generate_charts (.error "no display")
          { initState with workflow_status := "completed" }).validated_crypto_data =
        ({ initState with workflow_status := "completed" } : CryptoAnalysisState).validated_crypto_data
      ∧ (VisualizationAgent.generate_charts (.error "no display")
          { initState with workflow_status := "completed" }).analysis_results =
        ({ initState with workflow_status := "completed" } : CryptoAnalysisState).analysis_results
      ∧ (VisualizationAgent.generate_charts (.error "no display")
          { initState with workflow_status := "completed" }).data_collection_status =
        ({ initState with workflow_status := "completed" } : CryptoAnalysisState).data_collection_status
      ∧ (VisualizationAgent.generate_charts (.error "no display")
          { initState with workflow_status := "completed" }).analysis_status =
        ({ initState with workflow_status := "completed" } : CryptoAnalysisState).analysis_status
      ∧ (VisualizationAgent.generate_charts (.error "no display")
          { initState with workflow_status := "completed" }).has_price_changes =
        ({ initState with workflow_status := "completed" } : CryptoAnalysisState).has_price_changes
      ∧ (VisualizationAgent.generate_charts (.error "no display")
          { initState with workflow_status := "completed" }).warnings =
        ({ initState with workflow_status := "completed" } : CryptoAnalysisState).warnings
      ∧ (VisualizationAgent.generate_charts (.error "no display")
          { initState with workflow_status := "completed" }).errors =
        ({ initState with workflow_status := "completed" } : CryptoAnalysisState).errors
      ∧ (VisualizationAgent.generate_charts (.error "no display")
          { initState with workflow_status := "completed" }).timestamp =
        ({ initState with workflow_status := "completed" } : CryptoAnalysisState).timestamp
      ∧ (VisualizationAgent.generate_charts (.error "no display")
          { initState with workflow_status := "completed" }).ai_insights =
        ({ initState with workflow_status := "completed" } : CryptoAnalysisState).ai_insights
      ∧ (VisualizationAgent.generate_charts (.error "no display")
          { initState with workflow_status := "completed" }).insights_status =
        ({ initState with workflow_status := "completed" } : CryptoAnalysisState).insights_status
      ∧ (VisualizationAgent.generate_charts (.error "no display")
          { initState with workflow_status := "completed" }).insights_error =
        ({ initState with workflow_status := "completed" } : CryptoAnalysisState).insights_error
      ∧ (VisualizationAgent.generate_charts (.error "no display")
          { initState with workflow_status := "completed" }).chart_paths =
        ({ initState with workflow_status := "completed" } : CryptoAnalysisState).chart_paths
      ∧ (VisualizationAgent.generate_charts (.error "no display")
          { initState with workflow_status := "completed" }).visualization_status = some "failed"
      ∧ (VisualizationAgent.generate_charts (.error "no display")
          { initState with workflow_status := "completed" }).visualization_error = some "no display") :=
  C9_enrichment_frame { initState with workflow_status := "completed" }
    "AI down" "no display" rfl
